import Mathlib

/-!
Shallow embedding of the storage core of the vector-search engine
(segment versioning, error latch, flushing, payload index query planning,
cardinality estimation, read strategies and snapshot WAL generation),
translated from `lib/segment/src/segment.rs`,
`lib/segment/src/index/struct_payload_index.rs` and
`lib/collection/src/shards/local_shard.rs`.

Machine integers (`u64` sequence numbers, `u32` point offsets, `usize`
counts) are modelled as `Nat`; the values involved never overflow in the
modelled scenarios.  Fallible Rust functions returning `OperationResult`
are modelled with `Except OperationError`.  Stateful methods taking
`&mut self` are modelled as functions from the state to a pair of result
and new state.
-/

/-- External point id (`PointIdType`, a `u64` or UUID in the source). -/
abbrev PointIdType := Nat

/-- Internal, segment-local point offset (`PointOffsetType`, a `u32`). -/
abbrev PointOffsetType := Nat

/-- Operation sequence number (`SeqNumberType`, a `u64`). -/
abbrev SeqNumberType := Nat

/-- A dense vector.  The element type `f32` is modelled by `Int`: none of
the verified claims depend on real arithmetic on the stored coordinates,
only on equality and on the length of the vector. -/
abbrev VecM := List Int

/-- A point payload, modelled as an association list from JSON keys to
values (values collapsed to `Int`; the claims do not inspect them). -/
abbrev PayloadM := List (String × Int)

/-- Distance functions of a named vector (`types.rs`). -/
inductive Distance
| dot
| cosine
| euclid
deriving DecidableEq, Repr

/-- Error kinds of `OperationError` (`entry/entry_point.rs`, which is not
under the provided sources; the variants are those used by the segment
code under `src/` and by the spec's error taxonomy). -/
inductive OperationError
| wrongVector (expectedDim : Nat) (receivedDim : Nat)
| pointIdError (missedPointId : PointIdType)
| serviceError (msg : String)
| typeInferenceError (fieldName : String)
| missedVectorName (name : String)
deriving DecidableEq, Repr

/-- Whether an error is a service error. -/
def OperationError.isService : OperationError → Bool
| .serviceError _ => true
| _ => false

/-- Modelled from the spec: `get_service_error` (in `entry/entry_point.rs`,
not under the provided sources) inspects an `OperationResult` and yields
the contained error exactly when it is a service error ("leaf storage
errors surface as ServiceError; the Segment wraps them into
`error_status`"). -/
def getServiceError {α : Type} : Except OperationError α → Option OperationError
| .error e => if e.isService then some e else none
| .ok _ => none

/-- `SegmentFailedState` (`entry/entry_point.rs`): the error latch payload
stored in `Segment.error_status`. -/
structure SegmentFailedState where
  version : SeqNumberType
  pointId : Option PointIdType
  error : OperationError
deriving DecidableEq, Repr

/-- Modelled from the spec: the id tracker (`id_tracker/`, not under the
provided sources) is a bidirectional map between external and internal
ids plus a per-point version, with `internal_size` the number of
allocated internal slots. -/
structure IdTrackerM where
  internalId : PointIdType → Option PointOffsetType
  externalId : PointOffsetType → Option PointIdType
  internalVersion : PointOffsetType → Option SeqNumberType
  internalSize : Nat

/-- Modelled from the spec: `set_internal_version` records the version of
an internal id. -/
def IdTrackerM.setInternalVersion (t : IdTrackerM) (off : PointOffsetType)
    (ver : SeqNumberType) : IdTrackerM :=
  { t with internalVersion := fun o => if o = off then some ver else t.internalVersion o }

/-- Modelled from the spec: `set_link(ext, int)` links an external id to an
internal offset, replacing an existing mapping, and grows the internal
size to cover the new offset. -/
def IdTrackerM.setLink (t : IdTrackerM) (ext : PointIdType)
    (off : PointOffsetType) : IdTrackerM :=
  { t with
    internalId := fun e => if e = ext then some off else t.internalId e
    externalId := fun o => if o = off then some ext else t.externalId o
    internalSize := Nat.max t.internalSize (off + 1) }

/-- Modelled from the spec: `drop(ext)` removes the mapping of an external
id (tombstone); versions are kept. -/
def IdTrackerM.dropPoint (t : IdTrackerM) (ext : PointIdType) : IdTrackerM :=
  match t.internalId ext with
  | none => t
  | some off =>
    { t with
      internalId := fun e => if e = ext then none else t.internalId e
      externalId := fun o => if o = off then none else t.externalId o }

/-- One named vector's storage together with its configuration
(`VectorData` in `segment.rs` merged with the per-name
`VectorDataConfig`): the dimension reported by
`vector_storage.vector_dim()`, the distance from
`segment_config.vector_data[name].distance`, and the stored vectors. -/
structure VectorDataM where
  dim : Nat
  distance : Distance
  store : PointOffsetType → Option VecM

/-- The `Segment` state (`segment.rs`).  The payload index and payload
storage are collapsed into a per-offset payload map plus the set of
indexed fields; the on-disk parts relevant to flushing are the
`persistedVersion` cell. -/
structure SegmentM where
  version : Option SeqNumberType
  persistedVersion : Option SeqNumberType
  idTracker : IdTrackerM
  vectorData : String → Option VectorDataM
  payloads : PointOffsetType → Option PayloadM
  indexedFields : List (String × Nat)
  errorStatus : Option SegmentFailedState

/-- The result type of a wrapped operation closure in
`handle_version_and_failure`: a success flag, an optional changed point
offset, and the mutated segment. -/
abbrev OpResultM := Except OperationError (Bool × Option PointOffsetType) × SegmentM

/-- The staleness test of `Segment::handle_version` (`segment.rs` lines
198-216): an operation is skipped when a strictly newer version is
already recorded — per point when an offset is given (a point with no
recorded version is never stale), at segment level otherwise. -/
def SegmentM.versionCheckSkip (s : SegmentM) (opNum : SeqNumberType)
    (opPointOffset : Option PointOffsetType) : Bool :=
  match opPointOffset with
  | none => decide (s.version.getD 0 > opNum)
  | some off =>
    match s.idTracker.internalVersion off with
    | some currentVersion => decide (currentVersion > opNum)
    | none => false

/-- The post-processing block of `handle_version` (`segment.rs` lines
220-228): on success raise the segment version to `max(op_num, version)`
and record `op_num` as the version of the produced point offset. -/
def applyVersionResult (opNum : SeqNumberType) (r : OpResultM) :
    Except OperationError Bool × SegmentM :=
  match r with
  | (.ok (b, producedPoint), s1) =>
    let s2 := { s1 with version := some (Nat.max opNum (s1.version.getD 0)) }
    let s3 :=
      match producedPoint with
      | some pointOffset =>
        { s2 with idTracker := s2.idTracker.setInternalVersion pointOffset opNum }
      | none => s2
    (.ok b, s3)
  | (.error e, s1) => (.error e, s1)

/-- `Segment::handle_version` (`segment.rs` lines 189-229): skip stale
operations returning `Ok(false)`; otherwise run the wrapped operation
and post-process its result. -/
def SegmentM.handleVersion (s : SegmentM) (opNum : SeqNumberType)
    (opPointOffset : Option PointOffsetType)
    (operation : SegmentM → OpResultM) :
    Except OperationError Bool × SegmentM :=
  if s.versionCheckSkip opNum opPointOffset then (.ok false, s)
  else applyVersionResult opNum (operation s)

/-- The body shared by both branches of `handle_version_and_failure`
(`segment.rs` lines 148-183): run `handle_version`, then on a service
error arm the error latch with `op_num` and the external id of the
operation's point, and on a non-service-error outcome clear the latch if
its recorded point id matches the operation's point id. -/
def SegmentM.handleVersionProceed (s : SegmentM) (opNum : SeqNumberType)
    (opPointOffset : Option PointOffsetType)
    (operation : SegmentM → OpResultM) :
    Except OperationError Bool × SegmentM :=
  let r := s.handleVersion opNum opPointOffset operation
  match getServiceError r.1 with
  | none =>
    match r.2.errorStatus with
    | none => r
    | some err =>
      let pointId := opPointOffset.bind fun pointOffset => r.2.idTracker.externalId pointOffset
      if err.pointId = pointId then (r.1, { r.2 with errorStatus := none }) else r
  | some e =>
    let pointId := opPointOffset.bind fun pointOffset => r.2.idTracker.externalId pointOffset
    (r.1, { r.2 with errorStatus := some ⟨opNum, pointId, e⟩ })

/-- `Segment::handle_version_and_failure` (`segment.rs` lines 124-184):
while the error latch is set, reject any operation with `op_num`
strictly greater than the failed version with a service error; otherwise
proceed through `handle_version` and maintain the latch. -/
def SegmentM.handleVersionAndFailure (s : SegmentM) (opNum : SeqNumberType)
    (opPointOffset : Option PointOffsetType)
    (operation : SegmentM → OpResultM) :
    Except OperationError Bool × SegmentM :=
  match s.errorStatus with
  | some failedState =>
    if failedState.version < opNum then
      (.error (.serviceError "Not recovered from previous error"), s)
    else
      s.handleVersionProceed opNum opPointOffset operation
  | none => s.handleVersionProceed opNum opPointOffset operation

/-- Modelled from the spec: `check_vectors_set` (`common/mod.rs`, not under
the provided sources) validates that every vector name appearing in the
operation is configured in the segment; otherwise the operation fails
before any state is touched. -/
def checkVectorsSet (vectors : List (String × VecM)) (s : SegmentM) :
    Except OperationError Unit :=
  match vectors.find? (fun nv => (s.vectorData nv.1).isNone) with
  | some nv => .error (.missedVectorName nv.1)
  | none => .ok ()

/-- The per-name dimension and distance profile of a segment's vector
data. -/
def SegmentM.vecProfile (s : SegmentM) : String → Option (Nat × Distance) :=
  fun n => (s.vectorData n).map fun vd => (vd.dim, vd.distance)

/-- The vector-processing loop of `Segment::upsert_vector` (`segment.rs`
lines 639-661): for each named vector, check its length against the
storage dimension (failing with `WrongVector` on mismatch) and apply the
distance's preprocessing when it yields a value.  `pre` stands for
`Distance::preprocess_vector` (in `spaces/`, not under the provided
sources), taken as a parameter. -/
def processVectors (pre : Distance → VecM → Option VecM) (s : SegmentM) :
    List (String × VecM) → Except OperationError (List (String × VecM))
| [] => .ok []
| nv :: rest =>
  match s.vecProfile nv.1 with
  | none => .error (.serviceError "vector data not found")
  | some profile =>
    if profile.1 = nv.2.length then
      match processVectors pre s rest with
      | .ok processedRest =>
        let processed := match pre profile.2 nv.2 with
          | none => nv.2
          | some preprocessed => preprocessed
        .ok ((nv.1, processed) :: processedRest)
      | .error e => .error e
    else .error (.wrongVector profile.1 nv.2.length)

/-- Store overwrite at a fixed offset. -/
def updStore (off : PointOffsetType) (v : VecM) (vd : VectorDataM) : VectorDataM :=
  { vd with store := fun o => if o = off then some v else vd.store o }

/-- One `vector_storage.insert_vector(off, vector)` call: overwrite the
named storage's slot at the offset. -/
def insertOneVector (off : PointOffsetType) (acc : SegmentM)
    (nv : String × VecM) : SegmentM :=
  { acc with vectorData := fun n =>
      if n = nv.1 then (acc.vectorData n).map (updStore off nv.2)
      else acc.vectorData n }

/-- Writing a list of processed named vectors into the per-name vector
storages at a fixed offset (`vector_storage.insert_vector` loop used by
both branches of `upsert_vector` and by `update_vector`). -/
def SegmentM.insertVectors (s : SegmentM) (off : PointOffsetType)
    (processedVectors : List (String × VecM)) : SegmentM :=
  processedVectors.foldl (insertOneVector off) s

/-- The operation closure of `upsert_vector` (`segment.rs` lines 638-682):
preprocess the vectors, then either overwrite the existing point in
place or allocate a fresh internal offset, store the vectors there and
link the external id. -/
def upsertOp (pre : Distance → VecM → Option VecM) (pointId : PointIdType)
    (vectors : List (String × VecM))
    (storedInternalPoint : Option PointOffsetType) : SegmentM → OpResultM :=
  fun seg =>
    match processVectors pre seg vectors with
    | .error e => (.error e, seg)
    | .ok processedVectors =>
      match storedInternalPoint with
      | some existingInternalId =>
        (.ok (true, some existingInternalId),
          seg.insertVectors existingInternalId processedVectors)
      | none =>
        let newIndex := seg.idTracker.internalSize
        let seg1 := seg.insertVectors newIndex processedVectors
        let seg2 := { seg1 with idTracker := seg1.idTracker.setLink pointId newIndex }
        (.ok (false, some newIndex), seg2)

/-- `Segment::upsert_vector` (`segment.rs` lines 629-683): validate the
vector set, then run `upsertOp` under `handle_version_and_failure`,
keyed by the stored internal id of the point when present. -/
def SegmentM.upsertVector (pre : Distance → VecM → Option VecM)
    (s : SegmentM) (opNum : SeqNumberType) (pointId : PointIdType)
    (vectors : List (String × VecM)) : Except OperationError Bool × SegmentM :=
  match checkVectorsSet vectors s with
  | .error e => (.error e, s)
  | .ok _ =>
    let storedInternalPoint := s.idTracker.internalId pointId
    s.handleVersionAndFailure opNum storedInternalPoint
      (upsertOp pre pointId vectors storedInternalPoint)

/-- `Segment::delete_point` (`segment.rs` lines 685-701): `Ok(false)` when
the point does not exist; otherwise, under the version handler, drop the
point's payload and its id mapping. -/
def SegmentM.deletePoint (s : SegmentM) (opNum : SeqNumberType)
    (pointId : PointIdType) : Except OperationError Bool × SegmentM :=
  match s.idTracker.internalId pointId with
  | none => (.ok false, s)
  | some internalId =>
    s.handleVersionAndFailure opNum (some internalId) fun seg =>
      let seg1 := { seg with payloads := fun o => if o = internalId then none else seg.payloads o }
      let seg2 := { seg1 with idTracker := seg1.idTracker.dropPoint pointId }
      (.ok (true, some internalId), seg2)

/-- Replacing a key in an association-list payload (used by
`payload.assign`). -/
def assocSetPayload (base : PayloadM) (key : String) (v : Int) : PayloadM :=
  if base.any (fun kv => kv.1 = key) then
    base.map fun kv => if kv.1 = key then (key, v) else kv
  else base ++ [(key, v)]

/-- Merging a partial payload into an existing one
(`PayloadStorage::assign` semantics: present keys are replaced, other
keys are kept). -/
def mergePayload (base newPayload : PayloadM) : PayloadM :=
  newPayload.foldl (fun acc kv => assocSetPayload acc kv.1 kv.2) base

/-- `Segment::set_full_payload` (`segment.rs` lines 703-722): under the
version handler, replace the whole payload of the point
(`payload_index.assign_all`); `PointIdError` when the point does not
exist. -/
def SegmentM.setFullPayload (s : SegmentM) (opNum : SeqNumberType)
    (pointId : PointIdType) (fullPayload : PayloadM) :
    Except OperationError Bool × SegmentM :=
  let internalId := s.idTracker.internalId pointId
  s.handleVersionAndFailure opNum internalId fun seg =>
    match internalId with
    | some i =>
      (.ok (true, some i),
        { seg with payloads := fun o => if o = i then some fullPayload else seg.payloads o })
    | none => (.error (.pointIdError pointId), seg)

/-- `Segment::set_payload` (`segment.rs` lines 724-743): under the version
handler, merge the given payload into the point's payload
(`payload_index.assign`); `PointIdError` when the point does not
exist. -/
def SegmentM.setPayload (s : SegmentM) (opNum : SeqNumberType)
    (pointId : PointIdType) (payload : PayloadM) :
    Except OperationError Bool × SegmentM :=
  let internalId := s.idTracker.internalId pointId
  s.handleVersionAndFailure opNum internalId fun seg =>
    match internalId with
    | some i =>
      (.ok (true, some i),
        { seg with payloads := fun o =>
            if o = i then some (mergePayload ((seg.payloads i).getD []) payload)
            else seg.payloads o })
    | none => (.error (.pointIdError pointId), seg)

/-- `Segment::delete_payload` (`segment.rs` lines 745-764): under the
version handler, delete one key from the point's payload
(`payload_index.delete`); `PointIdError` when the point does not
exist. -/
def SegmentM.deletePayload (s : SegmentM) (opNum : SeqNumberType)
    (pointId : PointIdType) (key : String) :
    Except OperationError Bool × SegmentM :=
  let internalId := s.idTracker.internalId pointId
  s.handleVersionAndFailure opNum internalId fun seg =>
    match internalId with
    | some i =>
      (.ok (true, some i),
        { seg with payloads := fun o =>
            if o = i then (seg.payloads i).map (fun pl => pl.filter (fun kv => kv.1 ≠ key))
            else seg.payloads o })
    | none => (.error (.pointIdError pointId), seg)

/-- `Segment::clear_payload` (`segment.rs` lines 766-781): under the
version handler, drop the whole payload of the point
(`payload_index.drop`); `PointIdError` when the point does not exist. -/
def SegmentM.clearPayload (s : SegmentM) (opNum : SeqNumberType)
    (pointId : PointIdType) : Except OperationError Bool × SegmentM :=
  let internalId := s.idTracker.internalId pointId
  s.handleVersionAndFailure opNum internalId fun seg =>
    match internalId with
    | some i =>
      (.ok (true, some i),
        { seg with payloads := fun o => if o = i then none else seg.payloads o })
    | none => (.error (.pointIdError pointId), seg)

/-- `Segment::delete_field_index` (`segment.rs` lines 1096-1101): a
non-point operation (the version handler compares the segment-level
version); the wrapped operation removes the field from the payload
index. -/
def SegmentM.deleteFieldIndex (s : SegmentM) (opNum : SeqNumberType)
    (key : String) : Except OperationError Bool × SegmentM :=
  s.handleVersionAndFailure opNum none fun seg =>
    (.ok (true, none),
      { seg with indexedFields := seg.indexedFields.filter (fun f => f.1 ≠ key) })

/-- The synchronous path of `Segment::flush` (`segment.rs` lines 953-1075)
with `sync = true`: nothing to do on an empty segment or when the
persisted version already equals the segment version; otherwise run the
flush closure, which (after running all component flushers, assumed to
succeed in this sequential model) publishes the captured segment version
as the new persisted version and returns it. -/
def SegmentM.flushSync (s : SegmentM) : SegmentM × SeqNumberType :=
  match s.version, s.persistedVersion with
  | none, persisted => (s, persisted.getD 0)
  | some v, some persisted =>
    if v = persisted then (s, persisted)
    else ({ s with persistedVersion := some v }, v)
  | some v, none => ({ s with persistedVersion := some v }, v)

/-- A scored point of a search result (`ScoredPoint` restricted to the
fields produced by `process_search_result` without hydration). -/
structure ScoredPointM where
  id : PointIdType
  version : SeqNumberType
  score : Int
deriving DecidableEq, Repr

/-- The result-mapping part of `Segment::process_search_result`
(`segment.rs` lines 394-466): internal scored offsets whose external id
is missing are skipped with a warning; for the remaining ones the point
version must be present (else a service error). -/
def SegmentM.processSearchResult (s : SegmentM)
    (internalResult : List (PointOffsetType × Int)) :
    Except OperationError (List ScoredPointM) :=
  (internalResult.filterMap fun scored =>
      (s.idTracker.externalId scored.1).map fun ext => (ext, scored)).mapM
    fun er =>
      match s.idTracker.internalVersion er.2.1 with
      | none => .error (.serviceError "Corrupted id tracker, no version for point")
      | some pointVersion => .ok ⟨er.1, pointVersion, er.2.2⟩

/-- `Segment::search` (`segment.rs` lines 563-590): check the vector name,
then compare the query length with the storage dimension, failing with
`WrongVector` before the vector index is consulted; otherwise run the
index search (`indexSearch`, standing for
`vector_index.search(&[vector], filter, top, params)[0]`, whose
implementations live outside the segment) and map the result. -/
def SegmentM.search (s : SegmentM)
    (indexSearch : VecM → Nat → List (PointOffsetType × Int))
    (vectorName : String) (queryVector : VecM) (top : Nat) :
    Except OperationError (List ScoredPointM) :=
  match s.vectorData vectorName with
  | none => .error (.missedVectorName vectorName)
  | some vd =>
    if queryVector.length ≠ vd.dim then
      .error (.wrongVector vd.dim queryVector.length)
    else
      s.processSearchResult (indexSearch queryVector top)

/-- A leaf `FieldCondition` (`types.rs`), reduced to the indexed key: the
match value itself is only interpreted inside the field indexes, which
are abstract in this model. -/
structure FieldConditionM where
  key : String
deriving DecidableEq, Repr

/-- `IsEmptyCondition` (`types.rs`). -/
structure IsEmptyConditionM where
  key : String
deriving DecidableEq, Repr

/-- `IsNullCondition` (`types.rs`). -/
structure IsNullConditionM where
  key : String
deriving DecidableEq, Repr

/-- `PrimaryCondition` (`index/field_index/mod.rs`): the clauses of a
cardinality estimation that index lookups can enumerate. -/
inductive PrimaryConditionM
| condition (fc : FieldConditionM)
| ids (ids : List PointOffsetType)
| isEmpty (c : IsEmptyConditionM)
| isNull (c : IsNullConditionM)
deriving DecidableEq, Repr

/-- `CardinalityEstimation` (`index/field_index/mod.rs`). -/
structure CardinalityEstimation where
  primaryClauses : List PrimaryConditionM
  min : Nat
  exp : Nat
  max : Nat
deriving DecidableEq, Repr

/-- `CardinalityEstimation::unknown` (`index/field_index/mod.rs`, not under
the provided sources): no primary clauses, `min = 0`, `exp = total / 2`,
`max = total`. -/
def CardinalityEstimation.unknown (total : Nat) : CardinalityEstimation :=
  ⟨[], 0, total / 2, total⟩

/-- One field index of the payload index registry, abstracted to the
interface consulted by `StructPayloadIndex` (`FieldIndex` in
`index/field_index/`, not under the provided sources): `filter` may
decline to answer with `None`, `estimate_cardinality` likewise, and
`count_indexed_points` reports how many points the index holds. -/
structure FieldIndexM where
  filterIds : FieldConditionM → Option (List PointOffsetType)
  estimateCard : FieldConditionM → Option CardinalityEstimation
  countIndexedPoints : Nat

/-- A leaf `Condition` of a filter (`types.rs`).  The nested
`Condition::Filter` variant is omitted: `condition_cardinality` panics on
it ("Unexpected branching"), as nested filters are flattened before leaf
estimation. -/
inductive ConditionM
| isEmpty (c : IsEmptyConditionM)
| isNull (c : IsNullConditionM)
| hasId (ids : List PointIdType)
| field (fc : FieldConditionM)

/-- Association-list lookup used to model `HashMap::get`. -/
def lookupAssoc {β : Type} (l : List (String × β)) (key : String) : Option β :=
  (l.find? (fun kv => kv.1 = key)).map (fun kv => kv.2)

/-- Association-list insert used to model `HashMap::insert`: replaces the
value in place when the key is present (returning the old value), else
appends. -/
def insertAssoc {β : Type} (l : List (String × β)) (key : String) (v : β) :
    Option β × List (String × β) :=
  match lookupAssoc l key with
  | some old =>
    (some old, l.map fun kv => if kv.1 = key then (key, v) else kv)
  | none => (none, l ++ [(key, v)])

/-- `PayloadConfig` (`index/payload_config.rs`): the persisted map of
indexed fields to their schemas (schemas reduced to an opaque tag). -/
structure PayloadConfigM where
  indexedFields : List (String × Nat)
deriving DecidableEq, Repr

/-- `StructPayloadIndex` (`struct_payload_index.rs`), with its borrowed id
tracker inlined (`pointsCount` for `points_count`, `iterIds` for
`iter_ids`, `internalIdMap` for `internal_id`) and the on-disk copy of
the config as written by `save_config` kept alongside the in-memory
one. -/
structure StructPayloadIndexM where
  pointsCount : Nat
  iterIds : List PointOffsetType
  internalSize : Nat
  internalIdMap : PointIdType → Option PointOffsetType
  fieldIndexes : List (String × List FieldIndexM)
  config : PayloadConfigM
  diskConfig : PayloadConfigM

/-- `StructPayloadIndex::estimate_field_condition`
(`struct_payload_index.rs` lines 56-70): the estimate of the first index
of the condition's field that answers, `None` when the field has no
indexes or none answers. -/
def StructPayloadIndexM.estimateFieldCondition (spi : StructPayloadIndexM)
    (condition : FieldConditionM) : Option CardinalityEstimation :=
  (lookupAssoc spi.fieldIndexes condition.key).bind fun indexes =>
    indexes.findSome? fun index => index.estimateCard condition

/-- `StructPayloadIndex::query_field` (`struct_payload_index.rs` lines
72-86): the iterator of the first index of the field that can answer the
condition. -/
def StructPayloadIndexM.queryField (spi : StructPayloadIndexM)
    (fieldCondition : FieldConditionM) : Option (List PointOffsetType) :=
  (lookupAssoc spi.fieldIndexes fieldCondition.key).bind fun indexes =>
    indexes.findSome? fun fieldIndex => fieldIndex.filterIds fieldCondition

/-- `StructPayloadIndex::condition_cardinality`
(`struct_payload_index.rs` lines 223-299). -/
def StructPayloadIndexM.conditionCardinality (spi : StructPayloadIndexM) :
    ConditionM → CardinalityEstimation
| .isEmpty c =>
  let totalPoints := spi.pointsCount
  match lookupAssoc spi.fieldIndexes c.key with
  | some fieldIndexes =>
    let indexedPoints :=
      fieldIndexes.foldl (fun acc index => Nat.max acc index.countIndexedPoints) 0
    ⟨[.isEmpty c], 0, totalPoints - indexedPoints, totalPoints - indexedPoints⟩
  | none => ⟨[.isEmpty c], 0, totalPoints / 2, totalPoints⟩
| .isNull c =>
  let totalPoints := spi.pointsCount
  match lookupAssoc spi.fieldIndexes c.key with
  | some fieldIndexes =>
    let indexedPoints :=
      fieldIndexes.foldl (fun acc index => Nat.max acc index.countIndexedPoints) 0
    ⟨[.isNull c], 0, totalPoints - indexedPoints, totalPoints - indexedPoints⟩
  | none => ⟨[.isNull c], 0, totalPoints / 2, totalPoints⟩
| .hasId ids =>
  let mappedIds := (ids.filterMap spi.internalIdMap).dedup
  let numIds := mappedIds.length
  ⟨[.ids mappedIds], numIds, numIds, numIds⟩
| .field fieldCondition =>
  (spi.estimateFieldCondition fieldCondition).getD
    (CardinalityEstimation.unknown spi.pointsCount)

/-- The visited-set pass of `query_points`: keep each candidate whose id
was not checked before and record it (`visited_list
.check_and_update_visited`). -/
def visitFilter (visited : List PointOffsetType) :
    List PointOffsetType → List PointOffsetType
| [] => []
| x :: xs =>
  if x ∈ visited then visitFilter visited xs
  else x :: visitFilter (x :: visited) xs

/-- `StructPayloadIndex::query_points` (`struct_payload_index.rs` lines
366-418), as a function of the computed cardinality estimation of the
filter (`estimate_cardinality`, whose tree-composition lives in
`query_estimator.rs` outside the provided sources) and of the filter
context's `check` (built by `struct_filtered_context`, likewise
abstract): with no primary clauses, a full scan filtered through the
context; otherwise the union of the primary-clause iterators,
deduplicated through the visited set, then filtered through the
context. -/
def StructPayloadIndexM.queryPoints (spi : StructPayloadIndexM)
    (queryCardinality : CardinalityEstimation)
    (check : PointOffsetType → Bool) : List PointOffsetType :=
  if queryCardinality.primaryClauses = [] then
    spi.iterIds.filter check
  else
    let preselected :=
      queryCardinality.primaryClauses.flatMap fun clause =>
        match clause with
        | .condition fieldCondition => (spi.queryField fieldCondition).getD spi.iterIds
        | .ids ids => ids
        | .isEmpty _ => spi.iterIds
        | .isNull _ => spi.iterIds
    (visitFilter [] preselected).filter check

/-- `StructPayloadIndex::set_indexed` (`struct_payload_index.rs` lines
326-342): always insert the new schema into the in-memory config; only
when the field was absent, save the config to disk and build the field
indexes (`build_and_save`; index construction is abstracted by
`buildIndexes`). -/
def StructPayloadIndexM.setIndexed (spi : StructPayloadIndexM)
    (buildIndexes : String → Nat → List FieldIndexM)
    (field : String) (payloadSchema : Nat) : StructPayloadIndexM :=
  let inserted := insertAssoc spi.config.indexedFields field payloadSchema
  let spi1 := { spi with config := ⟨inserted.2⟩ }
  if inserted.1 = none then
    let spi2 := { spi1 with diskConfig := spi1.config }
    { spi2 with
      fieldIndexes := (insertAssoc spi2.fieldIndexes field (buildIndexes field payloadSchema)).2 }
  else spi1

/-- A filter, opaque at the level of `read_filtered`: its meaning enters
only through the abstract payload-index components of `ReadSegmentM`. -/
abbrev FilterM := Nat

/-- The strategy chosen by `Segment::read_filtered` for a filtered read. -/
inductive ReadStrategy
| byIndex
| byStream
deriving DecidableEq, Repr

/-- The `exp_stream_checks` quantity of `Segment::read_filtered`
(`segment.rs` lines 858-863), with the `f64` arithmetic modelled exactly
over `ℚ` (the values involved are small nonnegative integers and exact
ratios; the final `as usize` cast truncates toward zero, i.e. takes the
floor): `total_points = points_count + 1`,
`check_probability = (exp + 1) / total_points`, and
`exp_stream_checks = limit.unwrap_or(total_points) / check_probability`. -/
def codeExpStreamChecks (pointsCount : Nat) (limit : Option Nat) (exp : Nat) : Nat :=
  let totalPoints : Nat := pointsCount + 1
  let checkProbability : ℚ := ((exp : ℚ) + 1) / (totalPoints : ℚ)
  Int.toNat (Rat.floor (((limit.getD totalPoints : Nat) : ℚ) / checkProbability))

/-- The cost heuristic of `Segment::read_filtered` (`segment.rs` lines
858-874): `exp_index_checks = max`, and the index strategy is chosen
when `exp_stream_checks > exp_index_checks`. -/
def readFilteredStrategy (pointsCount : Nat) (limit : Option Nat)
    (queryCardinality : CardinalityEstimation) : ReadStrategy :=
  let expStreamChecks : Nat := codeExpStreamChecks pointsCount limit queryCardinality.exp
  let expIndexChecks : Nat := queryCardinality.max
  if expStreamChecks > expIndexChecks then .byIndex else .byStream

/-- The segment state consulted by `read_filtered`: the live points of the
id tracker in ascending external-id order (`iter_from`), the point count,
and the payload-index services `estimate_cardinality`, `query_points`
and `filter_context(..).check`, abstract at this level. -/
structure ReadSegmentM where
  points : List (PointIdType × PointOffsetType)
  pointsCount : Nat
  externalIdF : PointOffsetType → Option PointIdType
  estimateCardinalityF : FilterM → CardinalityEstimation
  queryPointsF : FilterM → List PointOffsetType
  checkF : FilterM → PointOffsetType → Bool

/-- `IdTracker::iter_from(offset)`: the live points whose external id is
at least the offset, in ascending order. -/
def ReadSegmentM.iterFrom (rs : ReadSegmentM) (offset : Option PointIdType) :
    List (PointIdType × PointOffsetType) :=
  rs.points.filter fun p =>
    match offset with
    | none => true
    | some o => decide (o ≤ p.1)

/-- `Option`-limited `take`: `limit.unwrap_or(usize::MAX)` never truncates
the lists arising here. -/
def takeOpt {α : Type} (limit : Option Nat) (l : List α) : List α :=
  match limit with
  | some n => l.take n
  | none => l

/-- `Segment::filtered_read_by_index` (`segment.rs` lines 468-496): map
the ids produced by `query_points` to external ids, drop the ones below
the offset, keep the `limit` smallest and sort.  (`peek_top_smallest`
followed by the final sort is modelled as sorting first and taking the
prefix, which produces the same page.) -/
def ReadSegmentM.filteredReadByIndex (rs : ReadSegmentM)
    (offset : Option PointIdType) (limit : Option Nat) (condition : FilterM) :
    List PointIdType :=
  let ids := (rs.queryPointsF condition).filterMap fun internalId =>
    match rs.externalIdF internalId with
    | some externalId =>
      match offset with
      | some o => if externalId < o then none else some externalId
      | none => some externalId
    | none => none
  takeOpt limit (ids.mergeSort (fun a b => a ≤ b))

/-- `Segment::filtered_read_by_id_stream` (`segment.rs` lines 498-513):
stream the id tracker from the offset, check each internal id through
the filter context, and take the limit. -/
def ReadSegmentM.filteredReadByIdStream (rs : ReadSegmentM)
    (offset : Option PointIdType) (limit : Option Nat) (condition : FilterM) :
    List PointIdType :=
  takeOpt limit
    (((rs.iterFrom offset).filter fun p => rs.checkF condition p.2).map Prod.fst)

/-- `Segment::read_filtered` (`segment.rs` lines 821-877): with no filter,
stream all points from the offset up to the limit; with a filter, choose
between the index read and the id-stream read by the cost heuristic. -/
def ReadSegmentM.readFiltered (rs : ReadSegmentM) (offset : Option PointIdType)
    (limit : Option Nat) (filter : Option FilterM) : List PointIdType :=
  match filter with
  | none => takeOpt limit ((rs.iterFrom offset).map Prod.fst)
  | some condition =>
    let queryCardinality := rs.estimateCardinalityF condition
    match readFilteredStrategy rs.pointsCount limit queryCardinality with
    | .byIndex => rs.filteredReadByIndex offset limit condition
    | .byStream => rs.filteredReadByIdStream offset limit condition

/-- `WalOptions` (`wal` crate): segment capacity and queue length. -/
structure WalOptionsM where
  segmentCapacity : Nat
  segmentQueueLen : Nat
deriving DecidableEq, Repr

/-- A WAL, reduced to what the snapshot path consults: its configured
segment capacity, its starting index and its records. -/
structure WalM where
  segmentCapacity : Nat
  startIndex : Nat
  entries : List (Nat × Nat)
deriving DecidableEq, Repr

/-- `Wal::last_index`: the index after the records held by the log. -/
def WalM.lastIndex (w : WalM) : Nat := w.startIndex + w.entries.length

/-- Modelled from the spec: `Wal::generate_empty_wal_starting_at_index`
(in the `wal` crate, not under the provided sources) materializes an
empty log with the given options whose starting index is the given
index ("an empty-but-same-capacity WAL is materialized starting at the
current `last_index`"). -/
def generateEmptyWalStartingAtIndex (options : WalOptionsM) (index : Nat) : WalM :=
  ⟨options.segmentCapacity, index, []⟩

/-- `LocalShard::snapshot_empty_wal` (`local_shard.rs` lines 532-560):
read the live WAL's segment capacity and last index, and generate an
empty WAL with that capacity (queue length 0) starting at that index. -/
def snapshotEmptyWal (wal : WalM) : WalM :=
  let segmentCapacity := wal.segmentCapacity
  let latestOpNum := wal.lastIndex
  generateEmptyWalStartingAtIndex ⟨segmentCapacity, 0⟩ latestOpNum

/-- The WAL materialized in the snapshot directory by
`LocalShard::create_snapshot` (`local_shard.rs` lines 484-529): with
`save_wal` the live WAL is copied; without it (after the Plunger signal
has confirmed that all previously submitted operations were applied) a
fresh empty WAL is generated. -/
def createSnapshotWal (saveWal : Bool) (wal : WalM) : WalM :=
  if saveWal then wal else snapshotEmptyWal wal

/-- A trivial preprocessing function (the behaviour of `Distance::Dot`,
which preprocesses nothing). -/
def preNone : Distance → VecM → Option VecM := fun _ _ => none

/-- Fixture: id tracker holding external id 1 at offset 0 with version 5. -/
def exTracker1 : IdTrackerM :=
  ⟨fun e => if e = 1 then some 0 else none,
   fun o => if o = 0 then some 1 else none,
   fun o => if o = 0 then some 5 else none, 1⟩

/-- Fixture: a one-dimensional dot-distance vector storage holding `[1]`
at offset 0. -/
def exVd1 : VectorDataM := ⟨1, .dot, fun o => if o = 0 then some [1] else none⟩

/-- Fixture: a segment at version 5 holding one point (external id 1,
offset 0, point version 5) with a single named vector `v`. -/
def exSeg1 : SegmentM :=
  ⟨some 5, none, exTracker1, fun n => if n = "v" then some exVd1 else none,
   fun _ => none, [], none⟩

/-- Fixture: a segment at version 0 with one indexed field `f` and an
armed error latch recording failed version 5. -/
def exSegC2 : SegmentM :=
  ⟨some 0, none, exTracker1, fun _ => none, fun _ => none, [("f", 0)],
   some ⟨5, none, .serviceError "io"⟩⟩

/-- Fixture: a segment with an armed error latch recording failed version
5 for external point id 1 (offset 0). -/
def exSegW2 : SegmentM :=
  ⟨some 0, none,
   ⟨fun e => if e = 1 then some 0 else none,
    fun o => if o = 0 then some 1 else none,
    fun _ => none, 1⟩,
   fun _ => none, fun _ => none, [],
   some ⟨5, some 1, .serviceError "io"⟩⟩

/-- Fixture: a wrapped operation that succeeds without touching the
segment. -/
def exOpId : SegmentM → OpResultM := fun t => (.ok (true, none), t)

/-- Fixture: a segment holding one point (external id 1, offset 0, point
version 7) with a single named vector `v`, used as a witness state. -/
def exSegW1 : SegmentM :=
  ⟨some 7, none,
   ⟨fun e => if e = 1 then some 0 else none,
    fun o => if o = 0 then some 1 else none,
    fun o => if o = 0 then some 7 else none, 1⟩,
   fun n => if n = "v" then some exVd1 else none,
   fun _ => none, [("f", 0)], none⟩

/-- Fixture: a segment at version 7 with persisted version 3. -/
def exSegC3 : SegmentM :=
  ⟨some 7, some 3, exTracker1, fun _ => none, fun _ => none, [], none⟩

/-- The invariant of claim C3: whenever a persisted version is recorded,
the segment version is present and at least as large
(`persisted_version ≤ version`). -/
def SegmentM.VersionInv (s : SegmentM) : Prop :=
  ∀ p, s.persistedVersion = some p → ∃ v, s.version = some v ∧ p ≤ v

/-- A wrapped operation that leaves the `version` and `persisted_version`
fields untouched (true of every operation closure in the segment: they
mutate storages, payloads and the id tracker only). -/
def opPreservesVP (op : SegmentM → OpResultM) : Prop :=
  ∀ t, ((op t).2).version = t.version ∧ ((op t).2).persistedVersion = t.persistedVersion

/-- The last-written value for a name in a processed-vector list (the
net effect of inserting the list left to right). -/
def lookupLast : List (String × VecM) → String → Option VecM
| [], _ => none
| nv :: rest, n =>
  match lookupLast rest n with
  | some v => some v
  | none => if n = nv.1 then some nv.2 else none

/-- The canonical segment state after the update branch of
`upsert_vector` executes: vectors overwritten at the existing offset,
version raised, per-point version recorded. -/
def upsertPostUpdate (opNum : SeqNumberType) (off : PointOffsetType)
    (processed : List (String × VecM)) (t : SegmentM) : SegmentM :=
  let t1 := t.insertVectors off processed
  let t2 := { t1 with version := some (Nat.max opNum (t1.version.getD 0)) }
  { t2 with idTracker := t2.idTracker.setInternalVersion off opNum }

/-- The canonical segment state after the create branch of
`upsert_vector` executes: vectors written at a fresh offset, external id
linked, version raised, per-point version recorded. -/
def upsertPostCreate (opNum : SeqNumberType) (pointId : PointIdType)
    (processed : List (String × VecM)) (t : SegmentM) : SegmentM :=
  let newIndex := t.idTracker.internalSize
  let t1 := t.insertVectors newIndex processed
  let t2 := { t1 with idTracker := t1.idTracker.setLink pointId newIndex }
  let t3 := { t2 with version := some (Nat.max opNum (t2.version.getD 0)) }
  { t3 with idTracker := t3.idTracker.setInternalVersion newIndex opNum }

/-- The observable state of claim C4: stored vectors, the id mapping in
both directions, the per-point versions and the segment version. -/
def obsEqv (a b : SegmentM) : Prop :=
  (∀ n, (a.vectorData n).map (fun vd => vd.store) =
    (b.vectorData n).map (fun vd => vd.store)) ∧
  a.idTracker.internalId = b.idTracker.internalId ∧
  a.idTracker.externalId = b.idTracker.externalId ∧
  a.idTracker.internalVersion = b.idTracker.internalVersion ∧
  a.version = b.version

/-- Fixture: an empty segment configured with a single two-dimensional
named vector `v`. -/
def exSegC5 : SegmentM :=
  ⟨none, none, ⟨fun _ => none, fun _ => none, fun _ => none, 0⟩,
   fun n => if n = "v" then some ⟨2, .dot, fun _ => none⟩ else none,
   fun _ => none, [], none⟩

/-- Fixture: a vector-index search function that scores nothing. -/
def exIndexSearch : VecM → Nat → List (PointOffsetType × Int) := fun _ _ => []

/-- Fixture: a payload index over three live internal ids with no field
indexes. -/
def exSpiC6 : StructPayloadIndexM :=
  ⟨3, [0, 1, 2], 3, fun e => if e < 3 then some e else none, [], ⟨[]⟩, ⟨[]⟩⟩

/-- Fixture: a filter-context check accepting even ids. -/
def exCheck : PointOffsetType → Bool := fun i => i % 2 == 0

/-- Fixture: a field index that answers every condition with the estimate
`{min = 1, exp = 1, max = 1}` and holds 2 indexed points. -/
def exFieldIndex : FieldIndexM :=
  ⟨fun _ => some [0], fun _ => some ⟨[], 1, 1, 1⟩, 2⟩

/-- Fixture: a payload index with 10 points and one indexed field
`color`. -/
def exSpiC7 : StructPayloadIndexM :=
  ⟨10, [0, 1, 2], 3, fun e => if e < 3 then some e else none,
   [("color", [exFieldIndex])], ⟨[]⟩, ⟨[]⟩⟩

/-- Stated from the spec's words, for comparison with the code: the
claimed cost `exp_stream_checks = limit / (filter.exp / total)`, with
`total` the segment's point count, truncated to an integer. -/
def specExpStreamChecks (pointsCount limit exp : Nat) : Nat :=
  Int.toNat (Rat.floor ((limit : ℚ) / ((exp : ℚ) / (pointsCount : ℚ))))

/-- Fixture: a two-point read segment whose filter estimate is
`{exp = 1, max = 50}` for every filter. -/
def exRs : ReadSegmentM :=
  ⟨[(1, 0), (2, 1)], 2,
   fun o => if o = 0 then some 1 else if o = 1 then some 2 else none,
   fun _ => ⟨[], 1, 1, 50⟩,
   fun _ => [0, 1],
   fun _ _ => true⟩

/-- Fixture: a payload index whose config records field `"a"` with
schema tag `1` both in memory and on disk. -/
def exSpiC10 : StructPayloadIndexM :=
  ⟨3, [0, 1, 2], 3, fun _ => none, [], ⟨[("a", 1)]⟩, ⟨[("a", 1)]⟩⟩

/-- Overwriting the same slot twice keeps only the last value. -/
theorem updStore_updStore (off : PointOffsetType) (v w : VecM) (vd : VectorDataM) :
    updStore off w (updStore off v vd) = updStore off w vd := by
  unfold updStore
  congr 1
  funext o
  by_cases ho : o = off <;> simp [ho]

/-- A stale point operation is skipped by `handle_version`: when the
recorded per-point version is strictly greater than `op_num`, the result
is `Ok(false)` and the segment is untouched. -/
theorem handleVersion_stale_point (s : SegmentM) (opNum : SeqNumberType)
    (off cur : Nat) (op : SegmentM → OpResultM)
    (hver : s.idTracker.internalVersion off = some cur)
    (hstale : opNum < cur) :
    s.handleVersion opNum (some off) op = (.ok false, s) := by
  simp [SegmentM.handleVersion, SegmentM.versionCheckSkip, hver, hstale]

/-- A stale non-point operation is skipped by `handle_version`: when the
segment version is strictly greater than `op_num`, the result is
`Ok(false)` and the segment is untouched. -/
theorem handleVersion_stale_global (s : SegmentM) (opNum : SeqNumberType)
    (v : Nat) (op : SegmentM → OpResultM)
    (hv : s.version = some v) (hstale : opNum < v) :
    s.handleVersion opNum none op = (.ok false, s) := by
  simp [SegmentM.handleVersion, SegmentM.versionCheckSkip, hv, hstale]

/-- With a clear error latch, a stale point operation passes through
`handle_version_and_failure` as a pure skip. -/
theorem handleVAF_stale_point (s : SegmentM) (opNum : SeqNumberType)
    (off cur : Nat) (op : SegmentM → OpResultM)
    (hes : s.errorStatus = none)
    (hver : s.idTracker.internalVersion off = some cur)
    (hstale : opNum < cur) :
    s.handleVersionAndFailure opNum (some off) op = (.ok false, s) := by
  unfold SegmentM.handleVersionAndFailure
  rw [hes]
  unfold SegmentM.handleVersionProceed
  rw [handleVersion_stale_point s opNum off cur op hver hstale]
  simp [getServiceError, hes]

/-- With a clear error latch, a stale non-point operation passes through
`handle_version_and_failure` as a pure skip. -/
theorem handleVAF_stale_global (s : SegmentM) (opNum : SeqNumberType)
    (v : Nat) (op : SegmentM → OpResultM)
    (hes : s.errorStatus = none)
    (hv : s.version = some v) (hstale : opNum < v) :
    s.handleVersionAndFailure opNum none op = (.ok false, s) := by
  unfold SegmentM.handleVersionAndFailure
  rw [hes]
  unfold SegmentM.handleVersionProceed
  rw [handleVersion_stale_global s opNum v op hv hstale]
  simp [getServiceError, hes]

/-- Claim C1 (amended): a point-level mutation (upsert_vector,
delete_point, set_payload, set_full_payload, delete_payload,
clear_payload) on an existing point is rejected as stale — returning
`Ok(false)` without executing the wrapped operation and without changing
segment state — exactly under a strict comparison: when `op_num` is
strictly less than the per-point recorded version (the code skips on
`current_version > op_num`, so an operation with `op_num` equal to the
recorded version is re-executed); for non-point operations the
segment-level version is compared, again strictly. -/
theorem c1_stale_ops_skipped (pre : Distance → VecM → Option VecM)
    (s : SegmentM) (opNum : SeqNumberType) (pointId : PointIdType)
    (off cur : Nat)
    (hes : s.errorStatus = none)
    (hint : s.idTracker.internalId pointId = some off)
    (hver : s.idTracker.internalVersion off = some cur)
    (hstale : opNum < cur) :
    (∀ vectors, checkVectorsSet vectors s = .ok () →
      s.upsertVector pre opNum pointId vectors = (.ok false, s)) ∧
    s.deletePoint opNum pointId = (.ok false, s) ∧
    (∀ payload, s.setPayload opNum pointId payload = (.ok false, s)) ∧
    (∀ fullPayload, s.setFullPayload opNum pointId fullPayload = (.ok false, s)) ∧
    (∀ key, s.deletePayload opNum pointId key = (.ok false, s)) ∧
    s.clearPayload opNum pointId = (.ok false, s) ∧
    (∀ v key, s.version = some v → opNum < v →
      s.deleteFieldIndex opNum key = (.ok false, s)) := by
  refine ⟨?_, ?_, ?_, ?_, ?_, ?_, ?_⟩
  · intro vectors hcheck
    unfold SegmentM.upsertVector
    rw [hcheck, hint]
    exact handleVAF_stale_point s opNum off cur _ hes hver hstale
  · unfold SegmentM.deletePoint
    rw [hint]
    exact handleVAF_stale_point s opNum off cur _ hes hver hstale
  · intro payload
    unfold SegmentM.setPayload
    rw [hint]
    exact handleVAF_stale_point s opNum off cur _ hes hver hstale
  · intro fullPayload
    unfold SegmentM.setFullPayload
    rw [hint]
    exact handleVAF_stale_point s opNum off cur _ hes hver hstale
  · intro key
    unfold SegmentM.deletePayload
    rw [hint]
    exact handleVAF_stale_point s opNum off cur _ hes hver hstale
  · unfold SegmentM.clearPayload
    rw [hint]
    exact handleVAF_stale_point s opNum off cur _ hes hver hstale
  · intro v key hv hstale2
    unfold SegmentM.deleteFieldIndex
    exact handleVAF_stale_global s opNum v _ hes hv hstale2

/-- Claim C1 counterexample: on a segment holding external point 1 at
offset 0 with recorded per-point version 5, an `upsert_vector` with
`op_num = 5` (equal to, hence less-than-or-equal-to, the recorded
version) is NOT rejected: it returns `Ok(true)`, executes the wrapped
operation and overwrites the stored vector — refuting the claim that any
operation with `op_num` less than or equal to the recorded version is
skipped without effect. -/
theorem c1_equal_version_executes :
    exSeg1.idTracker.internalVersion 0 = some 5 ∧
    exSeg1.idTracker.internalId 1 = some 0 ∧
    (exSeg1.upsertVector preNone 5 1 [("v", [2])]).1 = .ok true ∧
    ((exSeg1.upsertVector preNone 5 1 [("v", [2])]).2.vectorData "v").map
      (fun vd => vd.store 0) = some (some [2]) ∧
    (exSeg1.vectorData "v").map (fun vd => vd.store 0) = some (some [1]) := by
  refine ⟨rfl, rfl, ?_, ?_, rfl⟩ <;> rfl

/-- Witness for claim C1 at a concrete input: on a segment whose point 1
(offset 0) has recorded version 7, a `set_payload` and a `delete_point`
with `op_num = 3 < 7` are both skipped as `Ok(false)` leaving the
segment intact, and a `delete_field_index` with `op_num = 3` below the
segment version 7 is likewise skipped. -/
theorem c1_stale_ops_skipped_witness :
    exSegW1.errorStatus = none ∧
    exSegW1.idTracker.internalId 1 = some 0 ∧
    exSegW1.idTracker.internalVersion 0 = some 7 ∧
    3 < 7 ∧
    exSegW1.setPayload 3 1 [("k", 1)] = (.ok false, exSegW1) ∧
    exSegW1.deletePoint 3 1 = (.ok false, exSegW1) ∧
    exSegW1.deleteFieldIndex 3 "f" = (.ok false, exSegW1) := by
  have h := c1_stale_ops_skipped preNone exSegW1 3 1 0 7 rfl rfl rfl (by decide)
  exact ⟨rfl, rfl, rfl, by decide, h.2.2.1 [("k", 1)], h.2.1,
    h.2.2.2.2.2.2 7 "f" rfl (by decide)⟩

/-- `handle_version` does not touch the error latch when the wrapped
operation does not. -/
theorem handleVersion_errorStatus (s : SegmentM) (opNum : SeqNumberType)
    (opPointOffset : Option PointOffsetType) (op : SegmentM → OpResultM)
    (hop : ∀ t, ((op t).2).errorStatus = t.errorStatus) :
    ((s.handleVersion opNum opPointOffset op).2).errorStatus = s.errorStatus := by
  have hos : ((op s).2).errorStatus = s.errorStatus := hop s
  unfold SegmentM.handleVersion
  by_cases hskip : s.versionCheckSkip opNum opPointOffset
  · simp [hskip]
  · simp only [hskip, if_neg, Bool.false_eq_true, ite_false]
    unfold applyVersionResult
    rcases hop2 : op s with ⟨res, s1⟩
    rw [hop2] at hos
    rcases res with e | ⟨b, producedPoint⟩
    · exact hos
    · cases producedPoint <;> simpa [IdTrackerM.setInternalVersion] using hos

/-- Claim C2 (amended): while the error latch holds failed version `v`,
an operation with `op_num` STRICTLY greater than `v` is rejected with the
"Not recovered from previous error" service error, leaving the segment
untouched (an operation with `op_num = v` is re-tried, not rejected);
for a retried (or any non-rejected) operation the latch ends up cleared
exactly when the operation completes without a service error and the
operation's point id — the external id of its point offset, `None` for a
non-point operation — equals the one recorded in the latch. -/
theorem c2_error_latch (s : SegmentM) (opNum : SeqNumberType)
    (opPointOffset : Option PointOffsetType) (op : SegmentM → OpResultM)
    (failedState : SegmentFailedState)
    (hes : s.errorStatus = some failedState)
    (hop : ∀ t, ((op t).2).errorStatus = t.errorStatus) :
    (failedState.version < opNum →
      s.handleVersionAndFailure opNum opPointOffset op =
        (.error (.serviceError "Not recovered from previous error"), s)) ∧
    (¬ failedState.version < opNum →
      (((s.handleVersionAndFailure opNum opPointOffset op).2).errorStatus = none ↔
        (getServiceError (s.handleVersion opNum opPointOffset op).1 = none ∧
          failedState.pointId = opPointOffset.bind
            (fun pointOffset =>
              ((s.handleVersion opNum opPointOffset op).2).idTracker.externalId pointOffset)))) := by
  constructor
  · intro hgt
    unfold SegmentM.handleVersionAndFailure
    rw [hes]
    simp [hgt]
  · intro hle
    unfold SegmentM.handleVersionAndFailure
    rw [hes]
    simp only [if_neg hle]
    unfold SegmentM.handleVersionProceed
    have herr := handleVersion_errorStatus s opNum opPointOffset op hop
    rw [hes] at herr
    rcases hr : s.handleVersion opNum opPointOffset op with ⟨res, s1⟩
    rw [hr] at herr
    cases hgs : getServiceError res with
    | none =>
      simp only [hgs]
      rw [herr]
      by_cases hpid : failedState.pointId =
          opPointOffset.bind fun pointOffset => s1.idTracker.externalId pointOffset
      · simp [hpid, hr, hgs]
      · simp only [if_neg hpid]
        simp only [Prod.snd] at herr
        simp [herr, hpid, hr, hgs]
    | some e =>
      simp only [hgs]
      constructor
      · intro hcontra
        simp at hcontra
      · intro hconj
        exact absurd hconj.1 (by simp)

/-- Claim C2 counterexample: on a segment whose error latch records
failed version 5, a `delete_field_index` with `op_num = 5` — hence with
`op_num` greater than or equal to the failed version — is NOT rejected:
it returns `Ok(true)` and actually removes the field, refuting the
claimed rejection of every operation with `op_num ≥ v`. -/
theorem c2_equal_version_retried :
    exSegC2.errorStatus = some ⟨5, none, .serviceError "io"⟩ ∧
    (exSegC2.deleteFieldIndex 5 "f").1 = .ok true ∧
    (exSegC2.deleteFieldIndex 5 "f").2.indexedFields = [] := by
  refine ⟨rfl, rfl, ?_⟩
  decide

/-- Witness for claim C2 at a concrete input: with the latch recording
failed version 5 for point id 1 and an operation with `op_num = 4 ≤ 5`
targeting the point at offset 0 (whose external id is 1), the operation
proceeds and the clearing condition of the latch is characterised by the
amended claim. -/
theorem c2_error_latch_witness :
    exSegW2.errorStatus = some ⟨5, some 1, .serviceError "io"⟩ ∧
    (¬ (5:Nat) < 4) ∧
    (((exSegW2.handleVersionAndFailure 4 (some 0) exOpId).2).errorStatus = none ↔
      (getServiceError (exSegW2.handleVersion 4 (some 0) exOpId).1 = none ∧
        (some 1 : Option PointIdType) = (some 0 : Option PointOffsetType).bind
          (fun pointOffset =>
            ((exSegW2.handleVersion 4 (some 0) exOpId).2).idTracker.externalId pointOffset))) :=
  ⟨rfl, by decide,
    (c2_error_latch exSegW2 4 (some 0) exOpId ⟨5, some 1, .serviceError "io"⟩ rfl
      (fun _ => rfl)).2 (by decide)⟩

/-- `handle_version` preserves the version invariant: it can only raise
the segment version and never touches the persisted version. -/
theorem handleVersion_versionInv (s : SegmentM) (opNum : SeqNumberType)
    (opPointOffset : Option PointOffsetType) (op : SegmentM → OpResultM)
    (hop : opPreservesVP op) (hinv : s.VersionInv) :
    ((s.handleVersion opNum opPointOffset op).2).VersionInv := by
  unfold SegmentM.handleVersion
  by_cases hskip : s.versionCheckSkip opNum opPointOffset
  · simpa [hskip] using hinv
  · simp only [hskip, Bool.false_eq_true, ite_false]
    unfold applyVersionResult
    rcases hop2 : op s with ⟨res, s1⟩
    have h1 : s1.version = s.version := by
      have := (hop s).1
      rw [hop2] at this
      exact this
    have h2 : s1.persistedVersion = s.persistedVersion := by
      have := (hop s).2
      rw [hop2] at this
      exact this
    rcases res with e | ⟨b, producedPoint⟩
    · intro p hp
      rw [h2] at hp
      obtain ⟨v, hv, hpv⟩ := hinv p hp
      exact ⟨v, by rw [h1, hv], hpv⟩
    · cases producedPoint <;>
      · intro p hp
        simp only at hp
        rw [h2] at hp
        obtain ⟨v, hv, hpv⟩ := hinv p hp
        refine ⟨Nat.max opNum (s1.version.getD 0), rfl, ?_⟩
        rw [h1, hv]
        exact le_trans hpv (Nat.le_max_right opNum v)

/-- `handle_version_proceed` preserves the version invariant: the
error-latch bookkeeping leaves the version fields untouched. -/
theorem handleVersionProceed_versionInv (s : SegmentM) (opNum : SeqNumberType)
    (opPointOffset : Option PointOffsetType) (op : SegmentM → OpResultM)
    (hop : opPreservesVP op) (hinv : s.VersionInv) :
    ((s.handleVersionProceed opNum opPointOffset op).2).VersionInv := by
  have hhv := handleVersion_versionInv s opNum opPointOffset op hop hinv
  unfold SegmentM.handleVersionProceed
  rcases hr : s.handleVersion opNum opPointOffset op with ⟨res, s1⟩
  rw [hr] at hhv
  simp only
  cases getServiceError res with
  | none =>
    cases hes1 : s1.errorStatus with
    | none => simpa [hes1] using hhv
    | some err =>
      simp only [hes1]
      by_cases hpid : err.pointId =
          opPointOffset.bind fun pointOffset => s1.idTracker.externalId pointOffset
      · simp only [if_pos hpid]
        exact fun p hp => hhv p hp
      · simp only [if_neg hpid]
        exact hhv
  | some e =>
    simp only
    exact fun p hp => hhv p hp

/-- `handle_version_and_failure` preserves the version invariant. -/
theorem handleVAF_versionInv (s : SegmentM) (opNum : SeqNumberType)
    (opPointOffset : Option PointOffsetType) (op : SegmentM → OpResultM)
    (hop : opPreservesVP op) (hinv : s.VersionInv) :
    ((s.handleVersionAndFailure opNum opPointOffset op).2).VersionInv := by
  unfold SegmentM.handleVersionAndFailure
  rcases hse : s.errorStatus with _ | failedState
  · simp only [hse]
    exact handleVersionProceed_versionInv s opNum opPointOffset op hop hinv
  · simp only [hse]
    by_cases hfv : failedState.version < opNum
    · simp only [if_pos hfv]
      exact hinv
    · simp only [if_neg hfv]
      exact handleVersionProceed_versionInv s opNum opPointOffset op hop hinv

/-- The non-vector fields of a segment are untouched by `insertVectors`. -/
theorem insertVectors_fields (off : PointOffsetType)
    (processedVectors : List (String × VecM)) (s : SegmentM) :
    (s.insertVectors off processedVectors).version = s.version ∧
    (s.insertVectors off processedVectors).persistedVersion = s.persistedVersion ∧
    (s.insertVectors off processedVectors).idTracker = s.idTracker ∧
    (s.insertVectors off processedVectors).payloads = s.payloads ∧
    (s.insertVectors off processedVectors).indexedFields = s.indexedFields ∧
    (s.insertVectors off processedVectors).errorStatus = s.errorStatus := by
  induction processedVectors generalizing s with
  | nil => exact ⟨rfl, rfl, rfl, rfl, rfl, rfl⟩
  | cons nv rest ih =>
    simpa [SegmentM.insertVectors, insertOneVector] using ih (insertOneVector off s nv)

/-- The operation closure of `upsert_vector` preserves the version
fields. -/
theorem upsertOp_preservesVP (pre : Distance → VecM → Option VecM)
    (storedInternalPoint : Option PointOffsetType) (pointId : PointIdType)
    (vectors : List (String × VecM)) :
    opPreservesVP (upsertOp pre pointId vectors storedInternalPoint) := by
  intro t
  unfold upsertOp
  rcases hp : processVectors pre t vectors with e | processedVectors
  · simp only [hp]
    trivial
  · simp only [hp]
    rcases storedInternalPoint with _ | existingInternalId
    · have h := insertVectors_fields t.idTracker.internalSize processedVectors t
      exact ⟨h.1, h.2.1⟩
    · have h := insertVectors_fields existingInternalId processedVectors t
      exact ⟨h.1, h.2.1⟩

/-- `flushSync` preserves the version invariant and, on a non-empty
segment, publishes the segment version as the new persisted version and
returns it. -/
theorem flushSync_versionInv (s : SegmentM) (hinv : s.VersionInv) :
    ((s.flushSync).1).VersionInv ∧
    (∀ v, s.version = some v →
      (s.flushSync).1.persistedVersion = some v ∧ (s.flushSync).2 = v ∧
      (s.flushSync).1.version = some v) := by
  unfold SegmentM.flushSync
  rcases hv : s.version with _ | v <;> rcases hp : s.persistedVersion with _ | p
  · exact ⟨by simpa [hp] using hinv, fun v hcontra => by cases hcontra⟩
  · exact ⟨by simpa [hp] using hinv, fun v hcontra => by cases hcontra⟩
  · refine ⟨?_, ?_⟩
    · intro q hq
      simp only at hq
      cases hq
      exact ⟨v, rfl, le_refl v⟩
    · intro w hw
      cases hw
      exact ⟨rfl, rfl, rfl⟩
  · by_cases hvp : v = p
    · subst hvp
      refine ⟨by simpa [if_pos rfl, hp] using hinv, ?_⟩
      intro w hw
      cases hw
      simp [hp, hv]
    · simp only [if_neg hvp]
      refine ⟨?_, ?_⟩
      · intro q hq
        simp only at hq
        cases hq
        exact ⟨v, rfl, le_refl v⟩
      · intro w hw
        cases hw
        exact ⟨rfl, rfl, rfl⟩

/-- Claim C3: every segment operation preserves
`persisted_version ≤ version` (stated as: whenever a persisted version
is recorded, the segment version is at least as large), and a successful
`flush(true)` on a non-empty segment makes the persisted version equal
to the segment version at the time of the flush and returns that
version. -/
theorem c3_flush_version_invariant (pre : Distance → VecM → Option VecM)
    (s : SegmentM) (opNum : SeqNumberType) (pointId : PointIdType)
    (vectors : List (String × VecM)) (payload fullPayload : PayloadM)
    (key : String) (hinv : s.VersionInv) :
    ((s.upsertVector pre opNum pointId vectors).2).VersionInv ∧
    ((s.deletePoint opNum pointId).2).VersionInv ∧
    ((s.setPayload opNum pointId payload).2).VersionInv ∧
    ((s.setFullPayload opNum pointId fullPayload).2).VersionInv ∧
    ((s.deletePayload opNum pointId key).2).VersionInv ∧
    ((s.clearPayload opNum pointId).2).VersionInv ∧
    ((s.deleteFieldIndex opNum key).2).VersionInv ∧
    ((s.flushSync).1).VersionInv ∧
    (∀ v, s.version = some v →
      (s.flushSync).1.persistedVersion = some v ∧ (s.flushSync).2 = v) := by
  refine ⟨?_, ?_, ?_, ?_, ?_, ?_, ?_,
    (flushSync_versionInv s hinv).1,
    fun v hv => ⟨((flushSync_versionInv s hinv).2 v hv).1,
      ((flushSync_versionInv s hinv).2 v hv).2.1⟩⟩
  · unfold SegmentM.upsertVector
    rcases checkVectorsSet vectors s with e | u
    · exact hinv
    · exact handleVAF_versionInv s opNum _ _
        (upsertOp_preservesVP pre (s.idTracker.internalId pointId) pointId vectors) hinv
  · unfold SegmentM.deletePoint
    rcases s.idTracker.internalId pointId with _ | internalId
    · exact hinv
    · exact handleVAF_versionInv s opNum _ _ (fun t => ⟨rfl, rfl⟩) hinv
  · unfold SegmentM.setPayload
    refine handleVAF_versionInv s opNum _ _ (fun t => ?_) hinv
    rcases s.idTracker.internalId pointId with _ | i <;> exact ⟨rfl, rfl⟩
  · unfold SegmentM.setFullPayload
    refine handleVAF_versionInv s opNum _ _ (fun t => ?_) hinv
    rcases s.idTracker.internalId pointId with _ | i <;> exact ⟨rfl, rfl⟩
  · unfold SegmentM.deletePayload
    refine handleVAF_versionInv s opNum _ _ (fun t => ?_) hinv
    rcases s.idTracker.internalId pointId with _ | i <;> exact ⟨rfl, rfl⟩
  · unfold SegmentM.clearPayload
    refine handleVAF_versionInv s opNum _ _ (fun t => ?_) hinv
    rcases s.idTracker.internalId pointId with _ | i <;> exact ⟨rfl, rfl⟩
  · unfold SegmentM.deleteFieldIndex
    exact handleVAF_versionInv s opNum _ _ (fun t => ⟨rfl, rfl⟩) hinv

/-- Witness for claim C3 at a concrete input: on a segment with version 7
and persisted version 3 (satisfying the invariant), a synchronous flush
publishes persisted version 7 and returns 7. -/
theorem c3_flush_version_invariant_witness :
    exSegC3.version = some 7 ∧
    (exSegC3.flushSync).1.persistedVersion = some 7 ∧ (exSegC3.flushSync).2 = 7 :=
  have hinv : exSegC3.VersionInv := fun p hp =>
    ⟨7, rfl, by injection hp with h; subst h; decide⟩
  ⟨rfl, (c3_flush_version_invariant preNone exSegC3 0 0 [] [] [] "k" hinv).2.2.2.2.2.2.2.2 7 rfl⟩

/-- Characterization of `insertVectors`, no-write case: a name for which
the list writes nothing keeps its vector data. -/
theorem insertVectors_vectorData_none (off : PointOffsetType)
    (processedVectors : List (String × VecM)) (n : String)
    (hl : lookupLast processedVectors n = none) (s : SegmentM) :
    (s.insertVectors off processedVectors).vectorData n = s.vectorData n := by
  induction processedVectors generalizing s with
  | nil => rfl
  | cons nv rest ih =>
    unfold lookupLast at hl
    rcases hr : lookupLast rest n with _ | w
    · rw [hr] at hl
      simp only at hl
      have hn : ¬ n = nv.1 := by
        intro hcontra
        rw [if_pos hcontra] at hl
        cases hl
      have step : (s.insertVectors off (nv :: rest)) =
          ((insertOneVector off s nv).insertVectors off rest) := rfl
      rw [step, ih hr]
      unfold insertOneVector
      simp only [if_neg hn]
    · rw [hr] at hl
      simp only at hl
      cases hl

/-- Characterization of `insertVectors`, write case: a name whose last
written value is `v` gets its store overwritten with `v` at the
offset. -/
theorem insertVectors_vectorData_some (off : PointOffsetType)
    (processedVectors : List (String × VecM)) (n : String) (v : VecM)
    (hl : lookupLast processedVectors n = some v) (s : SegmentM) :
    (s.insertVectors off processedVectors).vectorData n =
      (s.vectorData n).map (updStore off v) := by
  induction processedVectors generalizing s with
  | nil => cases hl
  | cons nv rest ih =>
    unfold lookupLast at hl
    have step : (s.insertVectors off (nv :: rest)) =
        ((insertOneVector off s nv).insertVectors off rest) := rfl
    rcases hr : lookupLast rest n with _ | w
    · rw [hr] at hl
      simp only at hl
      by_cases hn : n = nv.1
      · rw [if_pos hn] at hl
        have hv : nv.2 = v := Option.some.inj hl
        rw [step, insertVectors_vectorData_none off rest n hr]
        unfold insertOneVector
        simp only [if_pos hn]
        rw [hv]
      · rw [if_neg hn] at hl
        cases hl
    · rw [hr] at hl
      have hv : w = v := Option.some.inj hl
      subst hv
      rw [step, ih hr]
      unfold insertOneVector
      by_cases hn : n = nv.1
      · simp only [if_pos hn]
        rcases s.vectorData n with _ | vd
        · rfl
        · show some (updStore off w (updStore off nv.2 vd)) = some (updStore off w vd)
          rw [updStore_updStore]
      · simp only [if_neg hn]

/-- `insertVectors` does not change the dimension/distance profile. -/
theorem insertVectors_vecProfile (off : PointOffsetType)
    (processedVectors : List (String × VecM)) (s : SegmentM) :
    (s.insertVectors off processedVectors).vecProfile = s.vecProfile := by
  funext n
  unfold SegmentM.vecProfile
  rcases hl : lookupLast processedVectors n with _ | v
  · rw [insertVectors_vectorData_none off processedVectors n hl]
  · rw [insertVectors_vectorData_some off processedVectors n v hl]
    rcases s.vectorData n with _ | vd <;> rfl

/-- `processVectors` reads only the dimension/distance profile. -/
theorem processVectors_congr (pre : Distance → VecM → Option VecM)
    {s t : SegmentM} (h : s.vecProfile = t.vecProfile)
    (l : List (String × VecM)) :
    processVectors pre s l = processVectors pre t l := by
  induction l with
  | nil => rfl
  | cons nv rest ih =>
    unfold processVectors
    rw [ih, congrFun h nv.1]

/-- `checkVectorsSet` reads only the dimension/distance profile. -/
theorem checkVectorsSet_congr {s t : SegmentM}
    (h : s.vecProfile = t.vecProfile) (l : List (String × VecM)) :
    checkVectorsSet l s = checkVectorsSet l t := by
  unfold checkVectorsSet
  have hfind : ∀ nv : String × VecM,
      (s.vectorData nv.1).isNone = (t.vectorData nv.1).isNone := by
    intro nv
    have hn := congrFun h nv.1
    unfold SegmentM.vecProfile at hn
    rcases hs : s.vectorData nv.1 with _ | vds <;>
      rcases ht : t.vectorData nv.1 with _ | vdt <;>
      rw [hs, ht] at hn <;> simp at hn ⊢
  have : l.find? (fun nv => (s.vectorData nv.1).isNone) =
      l.find? (fun nv => (t.vectorData nv.1).isNone) := by
    induction l with
    | nil => rfl
    | cons nv rest ih =>
      simp only [List.find?]
      rw [hfind nv, ih]
  rw [this]

/-- `versionCheckSkip` reads only the segment version and the per-point
versions. -/
theorem versionCheckSkip_congr {s t : SegmentM}
    (h1 : s.version = t.version)
    (h2 : s.idTracker.internalVersion = t.idTracker.internalVersion)
    (opNum : SeqNumberType) (opPointOffset : Option PointOffsetType) :
    s.versionCheckSkip opNum opPointOffset = t.versionCheckSkip opNum opPointOffset := by
  unfold SegmentM.versionCheckSkip
  rcases opPointOffset with _ | off
  · rw [h1]
  · rw [h2]

/-- The state produced by `handle_version_proceed` is the `handle_version`
state with at most the error latch changed. -/
theorem handleVersionProceed_state (s : SegmentM) (opNum : SeqNumberType)
    (opPointOffset : Option PointOffsetType) (op : SegmentM → OpResultM) :
    ∃ Y, (s.handleVersionProceed opNum opPointOffset op).2 =
      { (s.handleVersion opNum opPointOffset op).2 with errorStatus := Y } := by
  unfold SegmentM.handleVersionProceed
  rcases hr : s.handleVersion opNum opPointOffset op with ⟨res, s1⟩
  simp only
  cases getServiceError res with
  | none =>
    cases hes1 : s1.errorStatus with
    | none => exact ⟨s1.errorStatus, rfl⟩
    | some err =>
      by_cases hpid : err.pointId =
          opPointOffset.bind fun pointOffset => s1.idTracker.externalId pointOffset
      · simp only [hpid, if_pos]
        exact ⟨none, rfl⟩
      · simp only [if_neg hpid]
        exact ⟨s1.errorStatus, rfl⟩
  | some e =>
    exact ⟨some ⟨opNum, opPointOffset.bind fun a => s1.idTracker.externalId a, e⟩, rfl⟩

/-- `handle_version` either skips (returning the segment untouched) or
applies the post-processing to the operation's result. -/
theorem handleVersion_state (s : SegmentM) (opNum : SeqNumberType)
    (opPointOffset : Option PointOffsetType) (op : SegmentM → OpResultM) :
    (s.versionCheckSkip opNum opPointOffset = true ∧
      s.handleVersion opNum opPointOffset op = (.ok false, s)) ∨
    (s.versionCheckSkip opNum opPointOffset = false ∧
      s.handleVersion opNum opPointOffset op = applyVersionResult opNum (op s)) := by
  unfold SegmentM.handleVersion
  by_cases hskip : s.versionCheckSkip opNum opPointOffset = true
  · left
    exact ⟨hskip, by rw [if_pos hskip]⟩
  · right
    refine ⟨by simpa using hskip, by rw [if_neg hskip]⟩

/-- The state produced by `handle_version_and_failure` is either the input
segment with at most the error latch changed (rejection, stale skip, or
failed operation closure with an unchanged segment), or the
post-processed operation state with at most the error latch changed. -/
theorem handleVAF_state (s : SegmentM) (opNum : SeqNumberType)
    (opPointOffset : Option PointOffsetType) (op : SegmentM → OpResultM) :
    (∃ Y, (s.handleVersionAndFailure opNum opPointOffset op).2 = { s with errorStatus := Y }) ∨
    (s.versionCheckSkip opNum opPointOffset = false ∧
      ∃ Y, (s.handleVersionAndFailure opNum opPointOffset op).2 =
        { (applyVersionResult opNum (op s)).2 with errorStatus := Y }) := by
  have hproceed : ∃ Y, (s.handleVersionProceed opNum opPointOffset op).2 =
      { (s.handleVersion opNum opPointOffset op).2 with errorStatus := Y } :=
    handleVersionProceed_state s opNum opPointOffset op
  have hmain : (∃ Y, (s.handleVersionProceed opNum opPointOffset op).2 =
        { s with errorStatus := Y }) ∨
      (s.versionCheckSkip opNum opPointOffset = false ∧
        ∃ Y, (s.handleVersionProceed opNum opPointOffset op).2 =
          { (applyVersionResult opNum (op s)).2 with errorStatus := Y }) := by
    obtain ⟨Y, hY⟩ := hproceed
    rcases handleVersion_state s opNum opPointOffset op with ⟨hskip, heq⟩ | ⟨hskip, heq⟩
    · left
      exact ⟨Y, by rw [hY, heq]⟩
    · right
      exact ⟨hskip, Y, by rw [hY, heq]⟩
  unfold SegmentM.handleVersionAndFailure
  rcases hse : s.errorStatus with _ | failedState
  · simpa only [hse] using hmain
  · simp only [hse]
    by_cases hfv : failedState.version < opNum
    · simp only [if_pos hfv]
      left
      exact ⟨some failedState, by rw [← hse]⟩
    · simpa only [if_neg hfv] using hmain

/-- With the error latch armed at a failed version strictly below
`op_num`, `upsert_vector` (past the vector-set validation) is rejected
with the recovery service error, leaving the segment untouched. -/
theorem upsertVector_rejected (pre : Distance → VecM → Option VecM)
    (opNum : SeqNumberType) (pointId : PointIdType)
    (vectors : List (String × VecM)) (t : SegmentM) (fs : SegmentFailedState)
    (hcheck : checkVectorsSet vectors t = .ok ())
    (hes : t.errorStatus = some fs) (hlt : fs.version < opNum) :
    t.upsertVector pre opNum pointId vectors =
      (.error (.serviceError "Not recovered from previous error"), t) := by
  unfold SegmentM.upsertVector
  simp only [hcheck]
  unfold SegmentM.handleVersionAndFailure
  simp only [hes]
  rw [if_pos hlt]

/-- When `upsert_vector` does not execute its operation closure — the
vector set fails validation, the operation is rejected by the error
latch, the staleness check skips it, or vector processing fails — the
resulting segment is the input with at most the error latch changed. -/
theorem upsertVector_noexec (pre : Distance → VecM → Option VecM)
    (opNum : SeqNumberType) (pointId : PointIdType)
    (vectors : List (String × VecM)) (t : SegmentM)
    (h : (∃ e, checkVectorsSet vectors t = .error e) ∨
         t.versionCheckSkip opNum (t.idTracker.internalId pointId) = true ∨
         (∃ fs, t.errorStatus = some fs ∧ fs.version < opNum) ∨
         (∃ e, processVectors pre t vectors = .error e)) :
    ∃ Y, (t.upsertVector pre opNum pointId vectors).2 = { t with errorStatus := Y } := by
  unfold SegmentM.upsertVector
  rcases hc : checkVectorsSet vectors t with e | u
  · exact ⟨t.errorStatus, rfl⟩
  · cases u
    rcases handleVAF_state t opNum (t.idTracker.internalId pointId)
        (upsertOp pre pointId vectors (t.idTracker.internalId pointId)) with
      ⟨Y, hY⟩ | ⟨hskip2, Y, hY⟩
    · exact ⟨Y, hY⟩
    · rcases h with ⟨e, he⟩ | hskip | ⟨fs, hes, hlt⟩ | ⟨e, hpe⟩
      · rw [hc] at he
        cases he
      · rw [hskip] at hskip2
        cases hskip2
      · have := upsertVector_rejected pre opNum pointId vectors t fs hc hes hlt
        unfold SegmentM.upsertVector at this
        rw [hc] at this
        rw [this]
        exact ⟨some fs, by rw [← hes]⟩
      · refine ⟨Y, ?_⟩
        rw [hY]
        show ({ (applyVersionResult opNum (upsertOp pre pointId vectors
          (t.idTracker.internalId pointId) t)).2 with errorStatus := Y }) = _
        unfold upsertOp
        rw [hpe]
        rfl

/-- When the vector set validates, the latch does not reject, the
staleness check passes and the vectors process successfully,
`upsert_vector` produces the canonical post-state (update or create
according to the stored internal id), with at most the error latch
changed on top. -/
theorem upsertVector_exec (pre : Distance → VecM → Option VecM)
    (opNum : SeqNumberType) (pointId : PointIdType)
    (vectors processed : List (String × VecM)) (t : SegmentM)
    (hcheck : checkVectorsSet vectors t = .ok ())
    (hskip : t.versionCheckSkip opNum (t.idTracker.internalId pointId) = false)
    (hproc : processVectors pre t vectors = .ok processed) :
    (∃ fs, t.errorStatus = some fs ∧ fs.version < opNum ∧
      (t.upsertVector pre opNum pointId vectors).2 = t) ∨
    ∃ Y, (t.upsertVector pre opNum pointId vectors).2 =
      { (match t.idTracker.internalId pointId with
         | some off => upsertPostUpdate opNum off processed t
         | none => upsertPostCreate opNum pointId processed t) with errorStatus := Y } := by
  by_cases hrej : ∃ fs, t.errorStatus = some fs ∧ fs.version < opNum
  · obtain ⟨fs, hes, hlt⟩ := hrej
    left
    exact ⟨fs, hes, hlt, by
      rw [upsertVector_rejected pre opNum pointId vectors t fs hcheck hes hlt]⟩
  · right
    have hproceed := handleVersionProceed_state t opNum (t.idTracker.internalId pointId)
      (upsertOp pre pointId vectors (t.idTracker.internalId pointId))
    obtain ⟨Y, hY⟩ := hproceed
    have hVAF : (t.upsertVector pre opNum pointId vectors) =
        t.handleVersionProceed opNum (t.idTracker.internalId pointId)
          (upsertOp pre pointId vectors (t.idTracker.internalId pointId)) := by
      unfold SegmentM.upsertVector
      simp only [hcheck]
      unfold SegmentM.handleVersionAndFailure
      rcases hes : t.errorStatus with _ | fs
      · rfl
      · have hnlt : ¬ fs.version < opNum := fun hlt => hrej ⟨fs, hes, hlt⟩
        simp only [if_neg hnlt]
    have hHV : t.handleVersion opNum (t.idTracker.internalId pointId)
        (upsertOp pre pointId vectors (t.idTracker.internalId pointId)) =
        applyVersionResult opNum (upsertOp pre pointId vectors
          (t.idTracker.internalId pointId) t) := by
      rcases handleVersion_state t opNum (t.idTracker.internalId pointId)
          (upsertOp pre pointId vectors (t.idTracker.internalId pointId)) with
        ⟨hsk, _⟩ | ⟨_, heq⟩
      · rw [hskip] at hsk
        cases hsk
      · exact heq
    refine ⟨Y, ?_⟩
    rw [hVAF, hY, hHV]
    unfold upsertOp
    rw [hproc]
    rcases t.idTracker.internalId pointId with _ | off
    · rfl
    · rfl

theorem obsEqv_refl (a : SegmentM) : obsEqv a a :=
  ⟨fun _ => rfl, rfl, rfl, rfl, rfl⟩

theorem obsEqv_errorStatus (a : SegmentM) (y : Option SegmentFailedState) :
    obsEqv { a with errorStatus := y } a :=
  ⟨fun _ => rfl, rfl, rfl, rfl, rfl⟩

/-- `insertVectors` reads only the vector data. -/
theorem insertVectors_vectorData_congr {a b : SegmentM}
    (h : a.vectorData = b.vectorData) (off : PointOffsetType)
    (l : List (String × VecM)) :
    (a.insertVectors off l).vectorData = (b.insertVectors off l).vectorData := by
  funext n
  rcases hl : lookupLast l n with _ | v
  · rw [insertVectors_vectorData_none off l n hl, insertVectors_vectorData_none off l n hl, h]
  · rw [insertVectors_vectorData_some off l n v hl, insertVectors_vectorData_some off l n v hl, h]

/-- Inserting the same processed vectors at the same offset twice equals
inserting them once (overwrite semantics). -/
theorem insertVectors_idem (t : SegmentM) (off : PointOffsetType)
    (l : List (String × VecM)) :
    ((t.insertVectors off l).insertVectors off l).vectorData =
      (t.insertVectors off l).vectorData := by
  funext n
  rcases hl : lookupLast l n with _ | v
  · rw [insertVectors_vectorData_none off l n hl]
  · rw [insertVectors_vectorData_some off l n v hl, insertVectors_vectorData_some off l n v hl,
      Option.map_map]
    have hcomp : updStore off v ∘ updStore off v = updStore off v := by
      funext vd
      exact updStore_updStore off v v vd
    rw [hcomp]

/-- Recording the same per-point version twice equals recording it
once. -/
theorem setInternalVersion_idem (tr : IdTrackerM) (off : PointOffsetType)
    (v : SeqNumberType) :
    (tr.setInternalVersion off v).setInternalVersion off v =
      tr.setInternalVersion off v := by
  unfold IdTrackerM.setInternalVersion
  congr 1
  funext o
  by_cases ho : o = off <;> simp [ho]

theorem nat_max_absorb (a b : Nat) : Nat.max a (Nat.max a b) = Nat.max a b := by
  simp only [Nat.max_def]
  by_cases h : a ≤ b
  · simp [h]
  · simp [h]

/-- Re-running the update branch of `upsert_vector` on a state that
already is an update/create post-state (up to the error latch) does not
change the observable state. -/
theorem upsertPostUpdate_obs_stable (opNum : SeqNumberType)
    (off2 : PointOffsetType) (processed : List (String × VecM))
    (t1 base : SegmentM) (tr : IdTrackerM) (v0 : Nat)
    (y : Option SegmentFailedState)
    (hvd : t1.vectorData = (base.insertVectors off2 processed).vectorData)
    (htr : t1.idTracker = tr.setInternalVersion off2 opNum)
    (hv : t1.version = some (Nat.max opNum v0)) :
    obsEqv { upsertPostUpdate opNum off2 processed t1 with errorStatus := y } t1 := by
  have hvd2 : (t1.insertVectors off2 processed).vectorData = t1.vectorData := by
    rw [insertVectors_vectorData_congr hvd off2 processed, insertVectors_idem, ← hvd]
  have hfields := insertVectors_fields off2 processed t1
  refine ⟨?_, ?_, ?_, ?_, ?_⟩
  · intro n
    show ((t1.insertVectors off2 processed).vectorData n).map _ = _
    rw [hvd2]
  · show ((t1.insertVectors off2 processed).idTracker.setInternalVersion off2 opNum).internalId =
      t1.idTracker.internalId
    rw [hfields.2.2.1]
    rfl
  · show ((t1.insertVectors off2 processed).idTracker.setInternalVersion off2 opNum).externalId =
      t1.idTracker.externalId
    rw [hfields.2.2.1]
    rfl
  · show ((t1.insertVectors off2 processed).idTracker.setInternalVersion off2 opNum).internalVersion =
      t1.idTracker.internalVersion
    rw [hfields.2.2.1, htr, setInternalVersion_idem]
  · show some (Nat.max opNum ((t1.insertVectors off2 processed).version.getD 0)) = t1.version
    rw [hfields.1, hv]
    show some (Nat.max opNum (Nat.max opNum v0)) = _
    rw [nat_max_absorb]

/-- Claim C4: calling `upsert_vector` twice in succession with identical
arguments (same `op_num`, point id and named vectors) leaves the segment
in the same observable state — stored vectors, id mapping in both
directions, per-point versions and segment version — as calling it
once.  (The second call is not skipped — `op_num` equals the recorded
version, so the staleness check passes — but it overwrites the same
slots with the same processed values and records the same versions.) -/
theorem c4_upsert_twice_idempotent (pre : Distance → VecM → Option VecM)
    (s : SegmentM) (opNum : SeqNumberType) (pointId : PointIdType)
    (vectors : List (String × VecM)) :
    obsEqv (((s.upsertVector pre opNum pointId vectors).2.upsertVector
        pre opNum pointId vectors).2)
      ((s.upsertVector pre opNum pointId vectors).2) := by
  rcases hc : checkVectorsSet vectors s with e | u
  · have h1 : s.upsertVector pre opNum pointId vectors = (.error e, s) := by
      unfold SegmentM.upsertVector
      simp only [hc]
    rw [h1]
    show obsEqv ((s.upsertVector pre opNum pointId vectors).2) s
    rw [h1]
    exact obsEqv_refl s
  · cases u
    by_cases hskip : s.versionCheckSkip opNum (s.idTracker.internalId pointId) = true
    · obtain ⟨y1, h1⟩ := upsertVector_noexec pre opNum pointId vectors s (Or.inr (Or.inl hskip))
      rw [h1]
      obtain ⟨y2, h2⟩ := upsertVector_noexec pre opNum pointId vectors
        { s with errorStatus := y1 } (Or.inr (Or.inl hskip))
      rw [h2]
      exact obsEqv_errorStatus _ _
    · have hskipf : s.versionCheckSkip opNum (s.idTracker.internalId pointId) = false := by
        simpa using hskip
      rcases hp : processVectors pre s vectors with e | processed
      · obtain ⟨y1, h1⟩ := upsertVector_noexec pre opNum pointId vectors s
          (Or.inr (Or.inr (Or.inr ⟨e, hp⟩)))
        rw [h1]
        have hp2 : processVectors pre { s with errorStatus := y1 } vectors = .error e :=
          (@processVectors_congr pre { s with errorStatus := y1 } s rfl vectors).trans hp
        obtain ⟨y2, h2⟩ := upsertVector_noexec pre opNum pointId vectors
          { s with errorStatus := y1 } (Or.inr (Or.inr (Or.inr ⟨e, hp2⟩)))
        rw [h2]
        exact obsEqv_errorStatus _ _
      · rcases upsertVector_exec pre opNum pointId vectors processed s hc hskipf hp with
          ⟨fs, hes, hlt, h1⟩ | ⟨y1, h1⟩
        · rw [h1]
          show obsEqv ((s.upsertVector pre opNum pointId vectors).2) s
          rw [h1]
          exact obsEqv_refl s
        · rcases hsid : s.idTracker.internalId pointId with _ | off
          · -- create branch
            rw [hsid] at h1
            have h1c : (s.upsertVector pre opNum pointId vectors).2 =
                { upsertPostCreate opNum pointId processed s with errorStatus := y1 } := h1
            rw [h1c]
            have hins := insertVectors_fields s.idTracker.internalSize processed s
            have hprof : ({ upsertPostCreate opNum pointId processed s with
                errorStatus := y1 } : SegmentM).vecProfile = s.vecProfile :=
              insertVectors_vecProfile s.idTracker.internalSize processed s
            have hc2 : checkVectorsSet vectors
                ({ upsertPostCreate opNum pointId processed s with
                  errorStatus := y1 } : SegmentM) = .ok () :=
              (checkVectorsSet_congr hprof vectors).trans hc
            have hp2 : processVectors pre
                ({ upsertPostCreate opNum pointId processed s with
                  errorStatus := y1 } : SegmentM) vectors = .ok processed :=
              (processVectors_congr pre hprof vectors).trans hp
            have htr : ({ upsertPostCreate opNum pointId processed s with
                errorStatus := y1 } : SegmentM).idTracker =
                (s.idTracker.setLink pointId s.idTracker.internalSize).setInternalVersion
                  s.idTracker.internalSize opNum :=
              congrArg (fun tr => (IdTrackerM.setLink tr pointId
                s.idTracker.internalSize).setInternalVersion
                  s.idTracker.internalSize opNum) hins.2.2.1
            have hsid2 : ({ upsertPostCreate opNum pointId processed s with
                errorStatus := y1 } : SegmentM).idTracker.internalId pointId =
                some s.idTracker.internalSize := by
              rw [htr]
              simp [IdTrackerM.setLink, IdTrackerM.setInternalVersion]
            have hiv : (upsertPostCreate opNum pointId processed s).idTracker.internalVersion
                s.idTracker.internalSize = some opNum := by
              have htr2 : (upsertPostCreate opNum pointId processed s).idTracker =
                  (s.idTracker.setLink pointId s.idTracker.internalSize).setInternalVersion
                    s.idTracker.internalSize opNum := htr
              rw [htr2]
              simp [IdTrackerM.setInternalVersion]
            have hskip2 : ({ upsertPostCreate opNum pointId processed s with
                errorStatus := y1 } : SegmentM).versionCheckSkip opNum
                (({ upsertPostCreate opNum pointId processed s with
                  errorStatus := y1 } : SegmentM).idTracker.internalId pointId) = false := by
              rw [hsid2]
              unfold SegmentM.versionCheckSkip
              simp [hiv, Nat.lt_irrefl]
            have hv1 : ({ upsertPostCreate opNum pointId processed s with
                errorStatus := y1 } : SegmentM).version =
                some (Nat.max opNum (s.version.getD 0)) := by
              show some (Nat.max opNum
                ((s.insertVectors s.idTracker.internalSize processed).version.getD 0)) = _
              rw [hins.1]
            rcases upsertVector_exec pre opNum pointId vectors processed
                { upsertPostCreate opNum pointId processed s with errorStatus := y1 }
                hc2 hskip2 hp2 with ⟨fs2, hes2, hlt2, h2⟩ | ⟨y2, h2⟩
            · rw [h2]
              exact obsEqv_refl _
            · rw [hsid2] at h2
              have h2c : (({ upsertPostCreate opNum pointId processed s with
                  errorStatus := y1 } : SegmentM).upsertVector pre opNum pointId vectors).2 =
                  { upsertPostUpdate opNum s.idTracker.internalSize processed
                    { upsertPostCreate opNum pointId processed s with errorStatus := y1 } with
                    errorStatus := y2 } := h2
              rw [h2c]
              exact upsertPostUpdate_obs_stable opNum s.idTracker.internalSize processed
                _ s (s.idTracker.setLink pointId s.idTracker.internalSize)
                (s.version.getD 0) y2 rfl htr hv1
          · -- update branch
            rw [hsid] at h1
            have h1u : (s.upsertVector pre opNum pointId vectors).2 =
                { upsertPostUpdate opNum off processed s with errorStatus := y1 } := h1
            rw [h1u]
            have hins := insertVectors_fields off processed s
            have hprof : ({ upsertPostUpdate opNum off processed s with
                errorStatus := y1 } : SegmentM).vecProfile = s.vecProfile :=
              insertVectors_vecProfile off processed s
            have hc2 : checkVectorsSet vectors
                ({ upsertPostUpdate opNum off processed s with
                  errorStatus := y1 } : SegmentM) = .ok () :=
              (checkVectorsSet_congr hprof vectors).trans hc
            have hp2 : processVectors pre
                ({ upsertPostUpdate opNum off processed s with
                  errorStatus := y1 } : SegmentM) vectors = .ok processed :=
              (processVectors_congr pre hprof vectors).trans hp
            have htr : ({ upsertPostUpdate opNum off processed s with
                errorStatus := y1 } : SegmentM).idTracker =
                s.idTracker.setInternalVersion off opNum :=
              congrArg (fun tr => IdTrackerM.setInternalVersion tr off opNum) hins.2.2.1
            have hsid2 : ({ upsertPostUpdate opNum off processed s with
                errorStatus := y1 } : SegmentM).idTracker.internalId pointId = some off := by
              rw [htr]
              exact hsid
            have hiv : (upsertPostUpdate opNum off processed s).idTracker.internalVersion
                off = some opNum := by
              have htr2 : (upsertPostUpdate opNum off processed s).idTracker =
                  s.idTracker.setInternalVersion off opNum := htr
              rw [htr2]
              simp [IdTrackerM.setInternalVersion]
            have hskip2 : ({ upsertPostUpdate opNum off processed s with
                errorStatus := y1 } : SegmentM).versionCheckSkip opNum
                (({ upsertPostUpdate opNum off processed s with
                  errorStatus := y1 } : SegmentM).idTracker.internalId pointId) = false := by
              rw [hsid2]
              unfold SegmentM.versionCheckSkip
              simp [hiv, Nat.lt_irrefl]
            have hv1 : ({ upsertPostUpdate opNum off processed s with
                errorStatus := y1 } : SegmentM).version =
                some (Nat.max opNum (s.version.getD 0)) := by
              show some (Nat.max opNum
                ((s.insertVectors off processed).version.getD 0)) = _
              rw [hins.1]
            rcases upsertVector_exec pre opNum pointId vectors processed
                { upsertPostUpdate opNum off processed s with errorStatus := y1 }
                hc2 hskip2 hp2 with ⟨fs2, hes2, hlt2, h2⟩ | ⟨y2, h2⟩
            · rw [h2]
              exact obsEqv_refl _
            · rw [hsid2] at h2
              have h2u : (({ upsertPostUpdate opNum off processed s with
                  errorStatus := y1 } : SegmentM).upsertVector pre opNum pointId vectors).2 =
                  { upsertPostUpdate opNum off processed
                    { upsertPostUpdate opNum off processed s with errorStatus := y1 } with
                    errorStatus := y2 } := h2
              rw [h2u]
              exact upsertPostUpdate_obs_stable opNum off processed
                _ s s.idTracker (s.version.getD 0) y2 rfl htr hv1

/-- A validated vector set has a configured profile for every name it
mentions. -/
theorem checkVectorsSet_names (vectors : List (String × VecM)) (s : SegmentM)
    (h : checkVectorsSet vectors s = .ok ()) :
    ∀ nv ∈ vectors, (s.vecProfile nv.1).isSome = true := by
  unfold checkVectorsSet at h
  rcases hf : vectors.find? (fun nv => (s.vectorData nv.1).isNone) with _ | nv
  · intro nv hmem
    have hnone := List.find?_eq_none.mp hf nv hmem
    unfold SegmentM.vecProfile
    rcases hvd : s.vectorData nv.1 with _ | vd
    · exact absurd (by rw [hvd]; rfl) hnone
    · rfl
  · rw [hf] at h
    cases h

/-- When some vector in a validated set has the wrong length for its
configured dimension, `processVectors` fails with a `WrongVector`
error. -/
theorem processVectors_mismatch (pre : Distance → VecM → Option VecM)
    (s : SegmentM) (vectors : List (String × VecM))
    (hnames : ∀ nv ∈ vectors, (s.vecProfile nv.1).isSome = true)
    (hmis : ∃ nv ∈ vectors, ∃ p, s.vecProfile nv.1 = some p ∧ p.1 ≠ nv.2.length) :
    ∃ ed rd, processVectors pre s vectors = .error (.wrongVector ed rd) := by
  induction vectors with
  | nil =>
    obtain ⟨nv, hmem, _⟩ := hmis
    cases hmem
  | cons nv rest ih =>
    unfold processVectors
    rcases hprof : s.vecProfile nv.1 with _ | p
    · have := hnames nv (List.mem_cons_self nv rest)
      rw [hprof] at this
      cases this
    · by_cases hdim : p.1 = nv.2.length
      · have hmisRest : ∃ nv2 ∈ rest, ∃ p2, s.vecProfile nv2.1 = some p2 ∧ p2.1 ≠ nv2.2.length := by
          obtain ⟨nv2, hmem, p2, hp2, hne⟩ := hmis
          rcases List.mem_cons.mp hmem with heq | hmem2
          · subst heq
            rw [hprof] at hp2
            cases hp2
            exact absurd hdim hne
          · exact ⟨nv2, hmem2, p2, hp2, hne⟩
        obtain ⟨ed, rd, hrest⟩ :=
          ih (fun nv2 hmem2 => hnames nv2 (List.mem_cons_of_mem nv hmem2)) hmisRest
        refine ⟨ed, rd, ?_⟩
        simp [hdim, hrest]
      · exact ⟨p.1, nv.2.length, by simp [hdim]⟩

/-- Claim C5: a query vector whose length differs from the named vector's
dimension makes `search` fail with `WrongVector{expected, received}`
before any scoring (the result does not depend on the vector index'
search function at all), and an upsert whose vector set contains a
wrong-length vector fails with the same error kind while leaving the
segment — stored vectors, payloads, id mappings and version — entirely
unchanged.  (Stated for a segment whose error latch is clear and for an
operation that is not skipped as stale, the cases in which the wrapped
operation actually runs.) -/
theorem c5_wrong_dimension_errors (s : SegmentM)
    (indexSearch : VecM → Nat → List (PointOffsetType × Int))
    (vectorName : String) (queryVector : VecM) (top : Nat) (vd : VectorDataM)
    (pre : Distance → VecM → Option VecM) (opNum : SeqNumberType)
    (pointId : PointIdType) (vectors : List (String × VecM))
    (hvd : s.vectorData vectorName = some vd)
    (hdim : queryVector.length ≠ vd.dim)
    (hes : s.errorStatus = none)
    (hcheck : checkVectorsSet vectors s = .ok ())
    (hfresh : s.versionCheckSkip opNum (s.idTracker.internalId pointId) = false)
    (hmis : ∃ nv ∈ vectors, ∃ p, s.vecProfile nv.1 = some p ∧ p.1 ≠ nv.2.length) :
    s.search indexSearch vectorName queryVector top =
      .error (.wrongVector vd.dim queryVector.length) ∧
    ∃ ed rd, s.upsertVector pre opNum pointId vectors =
      (.error (.wrongVector ed rd), s) := by
  constructor
  · unfold SegmentM.search
    rw [hvd]
    simp [hdim]
  · obtain ⟨ed, rd, hpe⟩ :=
      processVectors_mismatch pre s vectors (checkVectorsSet_names vectors s hcheck) hmis
    refine ⟨ed, rd, ?_⟩
    have hhv : s.handleVersion opNum (s.idTracker.internalId pointId)
        (upsertOp pre pointId vectors (s.idTracker.internalId pointId)) =
        (.error (.wrongVector ed rd), s) := by
      rcases handleVersion_state s opNum (s.idTracker.internalId pointId)
          (upsertOp pre pointId vectors (s.idTracker.internalId pointId)) with
        ⟨hsk, _⟩ | ⟨_, heq⟩
      · rw [hfresh] at hsk
        cases hsk
      · rw [heq]
        unfold upsertOp applyVersionResult
        rw [hpe]
    unfold SegmentM.upsertVector
    simp only [hcheck]
    unfold SegmentM.handleVersionAndFailure
    simp only [hes]
    unfold SegmentM.handleVersionProceed
    rw [hhv]
    simp [getServiceError, OperationError.isService, hes]

/-- Witness for claim C5 at a concrete input: on a segment with a
two-dimensional vector `v`, searching with a one-dimensional query fails
with `WrongVector{2, 1}` and upserting a one-dimensional vector fails
with a `WrongVector` error leaving the segment unchanged. -/
theorem c5_wrong_dimension_errors_witness :
    exSegC5.vectorData "v" = some ⟨2, .dot, fun _ => none⟩ ∧
    ([(1 : Int)].length ≠ 2) ∧
    exSegC5.errorStatus = none ∧
    checkVectorsSet [("v", [5])] exSegC5 = .ok () ∧
    exSegC5.versionCheckSkip 0 (exSegC5.idTracker.internalId 1) = false ∧
    exSegC5.search exIndexSearch "v" [1] 10 = .error (.wrongVector 2 1) ∧
    ∃ ed rd, exSegC5.upsertVector preNone 0 1 [("v", [5])] =
      (.error (.wrongVector ed rd), exSegC5) :=
  have h := c5_wrong_dimension_errors exSegC5 exIndexSearch "v" [1] 10
    ⟨2, .dot, fun _ => none⟩ preNone 0 1 [("v", [5])]
    rfl (by decide) rfl rfl rfl
    ⟨("v", [5]), by decide, (2, .dot), rfl, by decide⟩
  ⟨rfl, by decide, rfl, rfl, rfl, h.1, h.2⟩

/-- The visited-set pass produces distinct ids, none of them previously
visited. -/
theorem visitFilter_nodup (l : List PointOffsetType) :
    ∀ visited, (visitFilter visited l).Nodup ∧
      ∀ x ∈ visitFilter visited l, x ∉ visited := by
  induction l with
  | nil => exact fun visited => ⟨List.nodup_nil, fun x hx => absurd hx (List.not_mem_nil x)⟩
  | cons a rest ih =>
    intro visited
    unfold visitFilter
    by_cases ha : a ∈ visited
    · simp only [if_pos ha]
      exact ih visited
    · simp only [if_neg ha]
      obtain ⟨hnodup, hout⟩ := ih (a :: visited)
      refine ⟨List.nodup_cons.mpr ⟨?_, hnodup⟩, ?_⟩
      · intro hmem
        exact (hout a hmem) (List.mem_cons_self a visited)
      · intro x hx
        rcases List.mem_cons.mp hx with heq | hmem
        · subst heq
          exact ha
        · intro hxv
          exact (hout x hmem) (List.mem_cons_of_mem a hxv)

/-- Claim C6: every id returned by `query_points` satisfies the filter
context's `check`, the result contains no duplicates (provided the id
tracker's iterator yields distinct ids), with no primary clauses the
result is exactly the full scan filtered through the context, and
otherwise it is the union of the primary-clause iterators deduplicated
through the visited set and then filtered through the context. -/
theorem c6_query_points (spi : StructPayloadIndexM)
    (est : CardinalityEstimation) (check : PointOffsetType → Bool)
    (hnodup : spi.iterIds.Nodup) :
    (∀ x ∈ spi.queryPoints est check, check x = true) ∧
    (spi.queryPoints est check).Nodup ∧
    (est.primaryClauses = [] →
      spi.queryPoints est check = spi.iterIds.filter check) ∧
    (est.primaryClauses ≠ [] →
      spi.queryPoints est check =
        (visitFilter [] (est.primaryClauses.flatMap fun clause =>
          match clause with
          | .condition fieldCondition => (spi.queryField fieldCondition).getD spi.iterIds
          | .ids ids => ids
          | .isEmpty _ => spi.iterIds
          | .isNull _ => spi.iterIds)).filter check) := by
  refine ⟨?_, ?_, ?_, ?_⟩
  · intro x hx
    unfold StructPayloadIndexM.queryPoints at hx
    by_cases hpc : est.primaryClauses = []
    · rw [if_pos hpc] at hx
      exact (List.mem_filter.mp hx).2
    · rw [if_neg hpc] at hx
      exact (List.mem_filter.mp hx).2
  · unfold StructPayloadIndexM.queryPoints
    by_cases hpc : est.primaryClauses = []
    · rw [if_pos hpc]
      exact hnodup.filter check
    · rw [if_neg hpc]
      exact ((visitFilter_nodup _ []).1).filter check
  · intro hpc
    unfold StructPayloadIndexM.queryPoints
    rw [if_pos hpc]
  · intro hpc
    unfold StructPayloadIndexM.queryPoints
    rw [if_neg hpc]

/-- Witness for claim C6 at a concrete input: over distinct live ids
`[0, 1, 2]`, a query with no primary clauses equals the full scan
filtered through the context and the result has no duplicates. -/
theorem c6_query_points_witness :
    exSpiC6.iterIds.Nodup ∧
    (exSpiC6.queryPoints ⟨[], 0, 1, 3⟩ exCheck).Nodup ∧
    exSpiC6.queryPoints ⟨[], 0, 1, 3⟩ exCheck = exSpiC6.iterIds.filter exCheck :=
  have h := c6_query_points exSpiC6 ⟨[], 0, 1, 3⟩ exCheck (by decide)
  ⟨by decide, h.2.1, h.2.2.1 rfl⟩

/-- With distinct inputs mapped injectively (where defined), `filterMap`
produces distinct outputs. -/
theorem filterMap_nodup_of_inj {f : PointIdType → Option PointOffsetType}
    (ids : List PointIdType) (hids : ids.Nodup)
    (hinj : ∀ a ∈ ids, ∀ b ∈ ids, (f a).isSome = true → f a = f b → a = b) :
    (ids.filterMap f).Nodup := by
  induction ids with
  | nil => exact List.nodup_nil
  | cons a rest ih =>
    obtain ⟨hnotmem, hrest⟩ := List.nodup_cons.mp hids
    have ihr := ih hrest fun x hx y hy hsx hxy =>
      hinj x (List.mem_cons_of_mem a hx) y (List.mem_cons_of_mem a hy) hsx hxy
    rcases hf : f a with _ | x
    · simpa [List.filterMap_cons, hf] using ihr
    · rw [List.filterMap_cons, hf]
      refine List.nodup_cons.mpr ⟨?_, ihr⟩
      intro hmem
      obtain ⟨b, hb, hfb⟩ := List.mem_filterMap.mp hmem
      have hab : a = b := hinj a (List.mem_cons_self a rest) b (List.mem_cons_of_mem a hb)
        (by rw [hf]; rfl) (by rw [hf, hfb])
      rw [hab] at hnotmem
      exact hnotmem hb

/-- The number of values produced by `filterMap` equals the number of
inputs on which the map is defined. -/
theorem filterMap_length_eq_filter_isSome {α β : Type} (f : α → Option β)
    (l : List α) :
    (l.filterMap f).length = (l.filter fun a => (f a).isSome).length := by
  induction l with
  | nil => rfl
  | cons a rest ih =>
    rcases hf : f a with _ | b <;>
      simp [List.filterMap_cons, List.filter_cons, hf, ih]

/-- Claim C7: the leaf rules of the cardinality estimator.  For a `Field`
condition the first answering field-index estimate is used, else
`unknown(total)`; for `HasId`, `min = exp = max` equals the number of
distinct external ids that map to an internal id (given a well-formed,
injective id mapping); for `IsEmpty` and `IsNull` on a field that has
indexes, `min = 0` and `exp = max = total_points − indexed_points`,
where `indexed_points` is the largest `count_indexed_points` among the
field's indexes. -/
theorem c7_condition_cardinality (spi : StructPayloadIndexM)
    (fc : FieldConditionM) (ids : List PointIdType)
    (cEmpty : IsEmptyConditionM) (cNull : IsNullConditionM)
    (hids : ids.Nodup)
    (hinj : ∀ a ∈ ids, ∀ b ∈ ids, (spi.internalIdMap a).isSome = true →
      spi.internalIdMap a = spi.internalIdMap b → a = b) :
    ((∀ e, spi.estimateFieldCondition fc = some e →
        spi.conditionCardinality (.field fc) = e) ∧
     (spi.estimateFieldCondition fc = none →
        spi.conditionCardinality (.field fc) =
          CardinalityEstimation.unknown spi.pointsCount)) ∧
    ((spi.conditionCardinality (.hasId ids)).min =
        (ids.filter fun e => (spi.internalIdMap e).isSome).length ∧
     (spi.conditionCardinality (.hasId ids)).exp =
        (ids.filter fun e => (spi.internalIdMap e).isSome).length ∧
     (spi.conditionCardinality (.hasId ids)).max =
        (ids.filter fun e => (spi.internalIdMap e).isSome).length) ∧
    (∀ fieldIndexes, lookupAssoc spi.fieldIndexes cEmpty.key = some fieldIndexes →
      spi.conditionCardinality (.isEmpty cEmpty) =
        ⟨[.isEmpty cEmpty], 0,
          spi.pointsCount -
            fieldIndexes.foldl (fun acc index => Nat.max acc index.countIndexedPoints) 0,
          spi.pointsCount -
            fieldIndexes.foldl (fun acc index => Nat.max acc index.countIndexedPoints) 0⟩) ∧
    (∀ fieldIndexes, lookupAssoc spi.fieldIndexes cNull.key = some fieldIndexes →
      spi.conditionCardinality (.isNull cNull) =
        ⟨[.isNull cNull], 0,
          spi.pointsCount -
            fieldIndexes.foldl (fun acc index => Nat.max acc index.countIndexedPoints) 0,
          spi.pointsCount -
            fieldIndexes.foldl (fun acc index => Nat.max acc index.countIndexedPoints) 0⟩) := by
  have hlen : ((ids.filterMap spi.internalIdMap).dedup).length =
      (ids.filter fun e => (spi.internalIdMap e).isSome).length := by
    rw [List.Nodup.dedup (filterMap_nodup_of_inj ids hids hinj)]
    exact filterMap_length_eq_filter_isSome spi.internalIdMap ids
  refine ⟨⟨?_, ?_⟩, ⟨?_, ?_, ?_⟩, ?_, ?_⟩
  · intro e he
    simp only [StructPayloadIndexM.conditionCardinality, he, Option.getD_some]
  · intro he
    simp only [StructPayloadIndexM.conditionCardinality, he, Option.getD_none]
  · exact hlen
  · exact hlen
  · exact hlen
  · intro fieldIndexes hfi
    simp only [StructPayloadIndexM.conditionCardinality, hfi]
  · intro fieldIndexes hfi
    simp only [StructPayloadIndexM.conditionCardinality, hfi]

/-- Witness for claim C7 at a concrete input: the `Field` rule uses the
index's estimate, `HasId [5, 1, 2]` counts the two mapped ids, and
`IsEmpty(color)` yields `exp = max = 10 − 2`. -/
theorem c7_condition_cardinality_witness :
    ([5, 1, 2] : List PointIdType).Nodup ∧
    exSpiC7.conditionCardinality (.field ⟨"color"⟩) = ⟨[], 1, 1, 1⟩ ∧
    (exSpiC7.conditionCardinality (.hasId [5, 1, 2])).max = 2 ∧
    exSpiC7.conditionCardinality (.isEmpty ⟨"color"⟩) =
      ⟨[.isEmpty ⟨"color"⟩], 0, 8, 8⟩ :=
  have h := c7_condition_cardinality exSpiC7 ⟨"color"⟩ [5, 1, 2] ⟨"color"⟩ ⟨"color"⟩
    (by decide) (by decide)
  ⟨by decide, h.1.1 ⟨[], 1, 1, 1⟩ rfl,
    by rw [h.2.1.2.2]; decide,
    by rw [h.2.2.1 [exFieldIndex] rfl]; rfl⟩

/-- `Rat.floor` agrees with the floor of the `FloorRing` instance. -/
theorem ratFloor_eq_intFloor (q : ℚ) : Rat.floor q = ⌊q⌋ := by
  rw [Rat.floor_def' q, Rat.floor_def]

/-- Evaluation rule for the code's stream-checks cost at exact
rationals. -/
theorem codeExpStreamChecks_eval (p : Nat) (limit : Option Nat) (e v : Nat)
    (h : (((limit.getD (p + 1) : Nat) : ℚ) /
      (((e : ℚ) + 1) / (((p + 1 : Nat) : ℚ)))) = (v : ℚ)) :
    codeExpStreamChecks p limit e = v := by
  unfold codeExpStreamChecks
  show Int.toNat (Rat.floor (((limit.getD (p + 1) : Nat) : ℚ) /
    (((e : ℚ) + 1) / ((p + 1 : Nat) : ℚ)))) = v
  rw [h, ratFloor_eq_intFloor, Int.floor_natCast]
  simp

/-- Evaluation rule for the spec's stream-checks cost at exact
rationals. -/
theorem specExpStreamChecks_eval (p l e v : Nat)
    (h : ((l : ℚ) / ((e : ℚ) / (p : ℚ))) = (v : ℚ)) :
    specExpStreamChecks p l e = v := by
  unfold specExpStreamChecks
  rw [h, ratFloor_eq_intFloor, Int.floor_natCast]
  simp

/-- Claim C8 counterexample: with 7 points, `limit = 10` and a filter
estimate of `exp = 1, max = 50` (all ratios exactly representable in
`f64`), the spec formula gives `10 / (1/7) = 70 > 50`, so the claim
dictates the index strategy; the code computes
`10 / (2/8) = 40 ≤ 50` and streams the id tracker instead. -/
theorem c8_heuristic_counterexample :
    readFilteredStrategy 7 (some 10) ⟨[], 1, 1, 50⟩ = .byStream ∧
    specExpStreamChecks 7 10 1 = 70 ∧
    (50 : Nat) < specExpStreamChecks 7 10 1 := by
  have hcode : codeExpStreamChecks 7 (some 10) 1 = 40 :=
    codeExpStreamChecks_eval 7 (some 10) 1 40 (by norm_num)
  have hspec : specExpStreamChecks 7 10 1 = 70 :=
    specExpStreamChecks_eval 7 10 1 70 (by norm_num)
  refine ⟨?_, hspec, by rw [hspec]; norm_num⟩
  unfold readFilteredStrategy
  rw [hcode]
  norm_num

/-- Claim C8 (amended): `read_filtered` with no filter returns all points
from the offset up to the limit; with a filter it chooses
`filtered_read_by_index` exactly when
`exp_index_checks = filter.max` is strictly less than
`exp_stream_checks = limit.unwrap_or(total + 1) / ((filter.exp + 1) / (total + 1))`
(with `total = points_count`; the `+ 1` guards against division by
zero), and otherwise streams the id tracker through the filter
context. -/
theorem c8_read_filtered_strategy (rs : ReadSegmentM)
    (offset : Option PointIdType) (limit : Option Nat) :
    (rs.readFiltered offset limit none =
      takeOpt limit ((rs.iterFrom offset).map Prod.fst)) ∧
    (∀ f, rs.readFiltered offset limit (some f) =
      (if (rs.estimateCardinalityF f).max <
          codeExpStreamChecks rs.pointsCount limit (rs.estimateCardinalityF f).exp
        then rs.filteredReadByIndex offset limit f
        else rs.filteredReadByIdStream offset limit f)) ∧
    (∀ card : CardinalityEstimation,
      readFilteredStrategy rs.pointsCount limit card = .byIndex ↔
        card.max < codeExpStreamChecks rs.pointsCount limit card.exp) := by
  have hstrat : ∀ card : CardinalityEstimation,
      readFilteredStrategy rs.pointsCount limit card = .byIndex ↔
        card.max < codeExpStreamChecks rs.pointsCount limit card.exp := by
    intro card
    show (if codeExpStreamChecks rs.pointsCount limit card.exp > card.max
        then ReadStrategy.byIndex else ReadStrategy.byStream) = ReadStrategy.byIndex ↔
      card.max < codeExpStreamChecks rs.pointsCount limit card.exp
    by_cases h : card.max < codeExpStreamChecks rs.pointsCount limit card.exp
    · rw [if_pos h]
      exact ⟨fun _ => h, fun _ => rfl⟩
    · rw [if_neg h]
      exact ⟨(fun hcontra => nomatch hcontra), fun hlt => absurd hlt h⟩
  refine ⟨rfl, ?_, hstrat⟩
  intro f
  show (match readFilteredStrategy rs.pointsCount limit (rs.estimateCardinalityF f) with
    | .byIndex => rs.filteredReadByIndex offset limit f
    | .byStream => rs.filteredReadByIdStream offset limit f) = _
  by_cases h : (rs.estimateCardinalityF f).max <
      codeExpStreamChecks rs.pointsCount limit (rs.estimateCardinalityF f).exp
  · rw [(hstrat (rs.estimateCardinalityF f)).mpr h]
    rw [if_pos h]
  · rw [if_neg h]
    rcases hs : readFilteredStrategy rs.pointsCount limit (rs.estimateCardinalityF f) with _ | _
    · exact absurd ((hstrat (rs.estimateCardinalityF f)).mp hs) h
    · rfl

/-- Witness for claim C8 at a concrete input: the no-filter read returns
the points from the offset up to the limit, and the strategy iff is
checked for the estimate `{exp = 1, max = 50}` over 7 points. -/
theorem c8_read_filtered_strategy_witness :
    exRs.readFiltered none (some 1) none =
      takeOpt (some 1) ((exRs.iterFrom none).map Prod.fst) ∧
    exRs.readFiltered none (some 1) none = [1] ∧
    (readFilteredStrategy 7 (some 10) ⟨[], 1, 1, 50⟩ = .byIndex ↔
      (50 : Nat) < codeExpStreamChecks 7 (some 10) 1) :=
  ⟨(c8_read_filtered_strategy exRs none (some 1)).1, by decide,
    (c8_read_filtered_strategy ⟨[], 7, fun _ => none, fun _ => ⟨[], 1, 1, 50⟩,
      fun _ => [], fun _ _ => true⟩ none (some 10)).2.2 ⟨[], 1, 1, 50⟩⟩

/-- Claim C9: creating a shard snapshot with `save_wal = false`
materializes an empty WAL whose segment capacity equals the live WAL's
configured capacity and whose starting index equals the live WAL's
current last index. -/
theorem c9_snapshot_empty_wal (wal : WalM) :
    (createSnapshotWal false wal).entries = [] ∧
    (createSnapshotWal false wal).segmentCapacity = wal.segmentCapacity ∧
    (createSnapshotWal false wal).startIndex = wal.lastIndex :=
  ⟨rfl, rfl, rfl⟩

/-- `insertAssoc` on a present key replaces in place and returns the old
value. -/
theorem insertAssoc_some {β : Type} (l : List (String × β)) (key : String)
    (v old : β) (h : lookupAssoc l key = some old) :
    insertAssoc l key v =
      (some old, l.map fun kv => if kv.1 = key then (key, v) else kv) := by
  unfold insertAssoc
  rw [h]

/-- `insertAssoc` on an absent key appends and returns `none`. -/
theorem insertAssoc_none {β : Type} (l : List (String × β)) (key : String)
    (v : β) (h : lookupAssoc l key = none) :
    insertAssoc l key v = (none, l ++ [(key, v)]) := by
  unfold insertAssoc
  rw [h]

/-- Looking up the key after the in-place replacement performed by
`insertAssoc` on a present key yields the new value. -/
theorem lookupAssoc_replace {β : Type} (l : List (String × β)) (key : String)
    (v : β) (h : lookupAssoc l key ≠ none) :
    lookupAssoc (l.map fun kv => if kv.1 = key then (key, v) else kv) key = some v := by
  induction l with
  | nil => simp [lookupAssoc] at h
  | cons hd tl ih =>
    by_cases hk : hd.1 = key
    · simp [lookupAssoc, hk]
    · have htl : lookupAssoc tl key ≠ none := by
        simpa [lookupAssoc, hk] using h
      simpa [lookupAssoc, hk] using ih htl

/-- Claim C10 counterexample: `set_indexed` on a field already recorded
in the config (here `"a"`, schema `1`) does NOT leave the stored schema
unchanged: `HashMap::insert` replaces the in-memory schema with the new
one (here `2`) even though no index is rebuilt and the config file is
not rewritten. -/
theorem c10_schema_replaced :
    lookupAssoc exSpiC10.config.indexedFields "a" = some 1 ∧
    lookupAssoc
      (exSpiC10.setIndexed (fun _ _ => []) "a" 2).config.indexedFields "a" = some 2 ∧
    (exSpiC10.setIndexed (fun _ _ => []) "a" 2).config ≠ exSpiC10.config ∧
    (exSpiC10.setIndexed (fun _ _ => []) "a" 2).diskConfig = exSpiC10.diskConfig := by
  refine ⟨rfl, ?_, ?_, ?_⟩ <;> decide

/-- Claim C10 (amended): when the field is already recorded in the
config, `set_indexed` rewrites the in-memory schema to the new value
(`HashMap::insert` replaces) but does not rewrite the config file and
does not build indexes; when the field was not previously indexed, the
new entry is appended, the config is saved to disk and the field's
indexes are built and installed. -/
theorem c10_set_indexed (spi : StructPayloadIndexM)
    (buildIndexes : String → Nat → List FieldIndexM)
    (field : String) (payloadSchema : Nat) :
    ((∃ old, lookupAssoc spi.config.indexedFields field = some old) →
      (spi.setIndexed buildIndexes field payloadSchema).diskConfig = spi.diskConfig ∧
      (spi.setIndexed buildIndexes field payloadSchema).fieldIndexes =
        spi.fieldIndexes ∧
      (spi.setIndexed buildIndexes field payloadSchema).config.indexedFields =
        spi.config.indexedFields.map
          (fun kv => if kv.1 = field then (field, payloadSchema) else kv) ∧
      lookupAssoc
        (spi.setIndexed buildIndexes field payloadSchema).config.indexedFields field =
        some payloadSchema) ∧
    (lookupAssoc spi.config.indexedFields field = none →
      (spi.setIndexed buildIndexes field payloadSchema).config.indexedFields =
        spi.config.indexedFields ++ [(field, payloadSchema)] ∧
      (spi.setIndexed buildIndexes field payloadSchema).diskConfig =
        (spi.setIndexed buildIndexes field payloadSchema).config ∧
      (spi.setIndexed buildIndexes field payloadSchema).fieldIndexes =
        (insertAssoc spi.fieldIndexes field (buildIndexes field payloadSchema)).2) := by
  constructor
  · rintro ⟨old, hold⟩
    have hins := insertAssoc_some spi.config.indexedFields field payloadSchema old hold
    have hrep := lookupAssoc_replace spi.config.indexedFields field payloadSchema
      (by simp [hold])
    refine ⟨?_, ?_, ?_, ?_⟩ <;> simp [StructPayloadIndexM.setIndexed, hins, hrep]
  · intro hnone
    have hins := insertAssoc_none spi.config.indexedFields field payloadSchema hnone
    refine ⟨?_, ?_, ?_⟩ <;> simp [StructPayloadIndexM.setIndexed, hins]

/-- Witness for claim C10 at a concrete input: for an already-indexed
field the in-memory schema is replaced, and for a fresh field the entry
is appended to the config. -/
theorem c10_set_indexed_witness :
    ((∃ old, lookupAssoc exSpiC10.config.indexedFields "a" = some old) ∧
     lookupAssoc
       (exSpiC10.setIndexed (fun _ _ => []) "a" 2).config.indexedFields "a" =
       some 2) ∧
    (lookupAssoc exSpiC10.config.indexedFields "b" = none ∧
     (exSpiC10.setIndexed (fun _ _ => []) "b" 5).config.indexedFields =
       exSpiC10.config.indexedFields ++ [("b", 5)]) :=
  ⟨⟨⟨1, rfl⟩, ((c10_set_indexed exSpiC10 (fun _ _ => []) "a" 2).1 ⟨1, rfl⟩).2.2.2⟩,
   ⟨rfl, ((c10_set_indexed exSpiC10 (fun _ _ => []) "b" 5).2 rfl).1⟩⟩
